import Mathlib

/-!
Verification of the remote-instance connection subsystem of ai-ralph-tui.

This file gives a shallow embedding of

* `src/remote/client.ts` — the `RemoteClient` WebSocket state machine
  (connect / authenticate / heartbeat / cleanup), and
* the `InstanceManager` coordinator (tab list, alias→client map,
  reconnect-on-selection policy, refresh reconciliation),

and proves or refutes the specification claims about them.

Modelling conventions:

* The WebSocket handle is modelled as a record of which callbacks are
  attached plus a closed flag; transport activity is delivered as explicit
  inputs (`wsOpen`, `wsMessage`, `wsError`, `wsClose`).  A callback that has
  been detached (set to `null` in the source) simply drops the event.
* The promise returned by `connect()` is modelled as an explicit
  `PromiseState` with JS settle-once semantics.
* Message envelope `id` and `timestamp` fields are random/clock data unused
  by any of the verified logic, so they are elided from `WSMessage`.
* The heartbeat `setInterval` timer is a boolean "armed" flag; the timer
  firing is the explicit `tick` input (one `tick` per 30000 ms period,
  see `pingIntervalMs`).
* Ghost fields (`events`, `sent`, `released`, `leaked`, `notifications`,
  `evicted`, `lastConnectedCalls`) record the observable history; they are
  write-only instrumentation and never feed back into the control logic.
-/

namespace RalphTui

/-- `ConnectionStatus` (client.ts:13): the connection state machine
`disconnected → connecting → connected → disconnected`. -/
inductive ConnectionStatus
  | disconnected
  | connecting
  | connected
deriving DecidableEq

/-- The client-side view of one WebSocket object: which of the four
callbacks are currently attached, and whether `close()` has been called. -/
structure WS where
  onopen : Bool
  onmessage : Bool
  onerror : Bool
  onclose : Bool
  closed : Bool
deriving DecidableEq

/-- A freshly constructed socket as `connect()` leaves it
(client.ts:105-132): all four callbacks attached, not closed. -/
def freshWS : WS := ⟨true, true, true, true, false⟩

/-- A socket as `cleanup()` releases it (client.ts:240-254):
all callbacks detached, `close()` called. -/
def releasedWS : WS := ⟨false, false, false, false, true⟩

/-- Wire messages (`WSMessage` in remote/types.ts, per spec section 6).
Envelope `id`/`timestamp` are elided (tracing-only data). Any type other
than the four lifecycle kinds is an opaque application message `app`. -/
inductive WSMessage
  | auth (token : String)
  | authResponse (success : Bool) (err : Option String)
  | ping
  | pong
  | app (payload : String)
deriving DecidableEq

/-- `RemoteClientEvent` (client.ts:47-51): lifecycle events delivered to the
owner's event handler. -/
inductive RemoteClientEvent
  | connecting
  | connected
  | disconnected (err : Option String)
  | message (msg : WSMessage)
deriving DecidableEq

/-- Settlement state of the JS promise returned by one `connect()` call. -/
inductive PromiseState
  | pending
  | resolved
  | rejected (reason : String)
deriving DecidableEq

/-- JS promise settle-once rule: settling a promise that is no longer
pending has no effect. -/
def settleP (p : Option PromiseState) (s : PromiseState) : Option PromiseState :=
  match p with
  | some .pending => some s
  | _ => p

/-- Mutable fields of `RemoteClient` (client.ts:62-81).
`pingInterval = true` models a live `setInterval` handle. -/
structure RemoteClient where
  ws : Option WS
  host : String
  port : Nat
  token : String
  pingInterval : Bool
  status : ConnectionStatus
deriving DecidableEq

/-- A `RemoteClient` together with its observable history: the promise of the
in-flight `connect()` (if any), all events delivered to the owner, all frames
written to the transport, every socket torn down by `cleanup()`, and every
socket handle overwritten by a later `connect()` without cleanup. -/
structure ClientExec where
  rc : RemoteClient
  promise : Option PromiseState
  events : List RemoteClientEvent
  sent : List WSMessage
  released : List WS
  leaked : List WS
deriving DecidableEq

/-- Result of one client step: the new state, the events emitted during the
step, and the frames sent during the step (both also appended to the
history inside `c`). -/
structure COut where
  c : ClientExec
  evs : List RemoteClientEvent
  outs : List WSMessage
deriving DecidableEq

/-- Deliver one event to the owner's event handler (ghost record). -/
def ClientExec.emitE (c : ClientExec) (e : RemoteClientEvent) : ClientExec :=
  { c with events := c.events ++ [e] }

/-- Write one frame to the socket (ghost record). -/
def ClientExec.sendW (c : ClientExec) (msg : WSMessage) : ClientExec :=
  { c with sent := c.sent ++ [msg] }

/-- `cleanup()` (client.ts:240-254): stop the ping interval; if a socket is
held, detach all four callbacks, call `close()`, and null the handle.  The
released socket is recorded in its post-teardown state. -/
def ClientExec.cleanup (c : ClientExec) : ClientExec :=
  match c.rc.ws with
  | none => { c with rc := { c.rc with pingInterval := false } }
  | some _ =>
      { c with rc := { c.rc with pingInterval := false, ws := none },
               released := c.released ++ [releasedWS] }

/-- `connect()` synchronous part (client.ts:94-139): no-op guard when already
`connecting`/`connected`; otherwise set status to `connecting`, emit the
`connecting` event, construct a new WebSocket with all callbacks attached,
and create a fresh pending promise.  A socket handle still held from a
previous attempt is overwritten without cleanup (recorded in `leaked`). -/
def ClientExec.connectCall (c : ClientExec) : COut :=
  if c.rc.status = .connecting ∨ c.rc.status = .connected then ⟨c, [], []⟩
  else
    let leaked1 := match c.rc.ws with
      | some w => c.leaked ++ [w]
      | none => c.leaked
    let c1 : ClientExec :=
      { c with rc := { c.rc with status := .connecting, ws := some freshWS },
               promise := some .pending,
               leaked := leaked1 }
    ⟨c1.emitE .connecting, [.connecting], []⟩

/-- Transport open: the `onopen` callback calls `authenticate()`
(client.ts:107-109, 163-171), which writes `auth{token}` to the socket. -/
def ClientExec.wsOpen (c : ClientExec) : COut :=
  match c.rc.ws with
  | some w =>
      if w.onopen then ⟨c.sendW (.auth c.rc.token), [], [.auth c.rc.token]⟩
      else ⟨c, [], []⟩
  | none => ⟨c, [], []⟩

/-- `handleMessage` (client.ts:176-208).
`auth_response{success:true}`: status `connected`, emit `connected`, arm the
heartbeat (`startPingInterval` clears any previous timer first), resolve the
pending promise.  `auth_response{success:false}`: status `disconnected`, emit
`disconnected` with the server reason (default "Authentication failed"),
run `cleanup()`, reject.  `pong`: consumed silently.  Anything else is
forwarded to the owner as a `message` event. -/
def ClientExec.handleMessage (c : ClientExec) (msg : WSMessage) : COut :=
  match msg with
  | .authResponse success err =>
      if success then
        let c1 : ClientExec :=
          { c with rc := { c.rc with status := .connected } }
        let c2 := c1.emitE .connected
        let c3 : ClientExec :=
          { c2 with rc := { c2.rc with pingInterval := true } }
        ⟨{ c3 with promise := settleP c3.promise .resolved }, [.connected], []⟩
      else
        let reason := err.getD "Authentication failed"
        let c1 : ClientExec :=
          { c with rc := { c.rc with status := .disconnected } }
        let c2 := (c1.emitE (.disconnected (some reason))).cleanup
        ⟨{ c2 with promise := settleP c2.promise (.rejected reason) },
         [.disconnected (some reason)], []⟩
  | .pong => ⟨c, [], []⟩
  | _ => ⟨c.emitE (.message msg), [.message msg], []⟩

/-- Transport message delivery: dispatched through `onmessage`
(client.ts:111-118); dropped when the callback has been detached. -/
def ClientExec.wsMessage (c : ClientExec) (msg : WSMessage) : COut :=
  match c.rc.ws with
  | some w => if w.onmessage then c.handleMessage msg else ⟨c, [], []⟩
  | none => ⟨c, [], []⟩

/-- Transport error: the `onerror` callback (client.ts:120-124) sets status
`disconnected`, emits `disconnected{error:"Connection error"}` and rejects
the pending promise.  Note: it does not run `cleanup()`. -/
def ClientExec.wsError (c : ClientExec) : COut :=
  match c.rc.ws with
  | some w =>
      if w.onerror then
        let c1 : ClientExec :=
          { c with rc := { c.rc with status := .disconnected } }
        let c2 := c1.emitE (.disconnected (some "Connection error"))
        ⟨{ c2 with promise := settleP c2.promise (.rejected "Connection error") },
         [.disconnected (some "Connection error")], []⟩
      else ⟨c, [], []⟩
  | none => ⟨c, [], []⟩

/-- Transport close: the `onclose` callback (client.ts:126-132) runs
`cleanup()`, then emits `disconnected{error:"Connection closed"}` only if the
status was `connected`.  It neither settles the promise nor changes the
status on the pre-authentication (`connecting`) path. -/
def ClientExec.wsClose (c : ClientExec) : COut :=
  match c.rc.ws with
  | some w =>
      if w.onclose then
        let c1 := c.cleanup
        if c1.rc.status = .connected then
          let c2 : ClientExec :=
            { c1 with rc := { c1.rc with status := .disconnected } }
          ⟨c2.emitE (.disconnected (some "Connection closed")),
           [.disconnected (some "Connection closed")], []⟩
        else ⟨c1, [], []⟩
      else ⟨c, [], []⟩
  | none => ⟨c, [], []⟩

/-- `disconnect()` (client.ts:145-149): `cleanup()`, set status
`disconnected`, emit `disconnected` with no error reason. -/
def ClientExec.disconnectCall (c : ClientExec) : COut :=
  let c1 := c.cleanup
  let c2 : ClientExec := { c1 with rc := { c1.rc with status := .disconnected } }
  ⟨c2.emitE (.disconnected none), [.disconnected none], []⟩

/-- The heartbeat timer firing (the `setInterval` body, client.ts:215-224):
sends one `ping` if the status is `connected` and a socket is held. -/
def ClientExec.tick (c : ClientExec) : COut :=
  if c.rc.pingInterval then
    if c.rc.status = .connected ∧ c.rc.ws.isSome then ⟨c.sendW .ping, [], [.ping]⟩
    else ⟨c, [], []⟩
  else ⟨c, [], []⟩

/-- `send(message)` (client.ts:154-158): written only while a socket is held
and the status is `connected`; silently dropped otherwise. -/
def ClientExec.sendCall (c : ClientExec) (msg : WSMessage) : COut :=
  if c.rc.ws.isSome ∧ c.rc.status = .connected then ⟨c.sendW msg, [], [msg]⟩
  else ⟨c, [], []⟩

/-- One input to a `RemoteClient`: an owner call, a transport event, or the
heartbeat timer firing. -/
inductive ClientInput
  | connectCall
  | disconnectCall
  | sendCall (msg : WSMessage)
  | wsOpen
  | wsMessage (msg : WSMessage)
  | wsError
  | wsClose
  | tick
deriving DecidableEq

/-- Dispatch one input. -/
def clientStep (c : ClientExec) : ClientInput → COut
  | .connectCall => c.connectCall
  | .disconnectCall => c.disconnectCall
  | .sendCall m => c.sendCall m
  | .wsOpen => c.wsOpen
  | .wsMessage m => c.wsMessage m
  | .wsError => c.wsError
  | .wsClose => c.wsClose
  | .tick => c.tick

/-- Run a sequence of inputs. -/
def clientRun (c : ClientExec) : List ClientInput → ClientExec
  | [] => c
  | i :: is => clientRun (clientStep c i).c is

/-- A fresh `RemoteClient` as the constructor leaves it (client.ts:71-81). -/
def mkClient (host : String) (port : Nat) (token : String) : ClientExec :=
  ⟨⟨none, host, port, token, false, .disconnected⟩, none, [], [], [], []⟩

/-- The heartbeat period in milliseconds (client.ts:224): one `tick` input
stands for one expiry of this interval. -/
def pingIntervalMs : Nat := 30000

/-- `true` exactly for `disconnected` lifecycle events. -/
def RemoteClientEvent.isDisconnectedEv : RemoteClientEvent → Bool
  | .disconnected _ => true
  | _ => false

/-- `true` exactly for `auth` frames. -/
def WSMessage.isAuth : WSMessage → Bool
  | .auth _ => true
  | _ => false

/-! ### Claim C2: settlement of `connect()` on pre-authentication transport failure -/

/-- A client whose transport opened and then closed before any
`auth_response` arrived. -/
def preauthCloseClient : ClientExec :=
  clientRun (mkClient "h" 1 "t") [.connectCall, .wsOpen, .wsClose]

/-- Claim C2 counterexample: when the transport closes before authentication
completed, the `onclose` handler (client.ts:126-132) only runs `cleanup()` —
the pending `connect()` promise is left pending forever, no `disconnected`
event is emitted, and the status even stays `connecting`. -/
theorem C2_preauth_close_counterexample :
    preauthCloseClient.promise = some .pending ∧
    preauthCloseClient.events.filter RemoteClientEvent.isDisconnectedEv = [] ∧
    preauthCloseClient.rc.status = .connecting := by decide

/-- Claim C2 (amended): for a client in `connecting` with a pending
`connect()` promise and an attached socket, a transport *error* rejects the
pending promise and emits a `disconnected` event carrying a reason; a
transport *close* before authentication runs cleanup but leaves the promise
pending, emits no event, and leaves the status `connecting`. -/
theorem C2_preauth_error_rejects_close_leaves_pending
    (c : ClientExec) (w : WS)
    (hst : c.rc.status = .connecting)
    (hp : c.promise = some .pending)
    (hws : c.rc.ws = some w)
    (he : w.onerror = true) (hc : w.onclose = true) :
    ((clientStep c .wsError).c.promise = some (.rejected "Connection error") ∧
     (clientStep c .wsError).evs = [.disconnected (some "Connection error")]) ∧
    ((clientStep c .wsClose).c.promise = some .pending ∧
     (clientStep c .wsClose).evs = [] ∧
     (clientStep c .wsClose).c.rc.status = .connecting) := by
  constructor
  · simp [clientStep, ClientExec.wsError, hws, he, ClientExec.emitE, settleP, hp]
  · simp [clientStep, ClientExec.wsClose, hws, hc, ClientExec.cleanup, hst, hp]

/-- Witness for C2 (amended): the hypotheses hold for the concrete client
that connected and whose transport just opened. -/
theorem C2_preauth_error_rejects_close_leaves_pending_witness :
    (clientRun (mkClient "h" 1 "t") [.connectCall, .wsOpen]).rc.status = .connecting ∧
    ((clientStep (clientRun (mkClient "h" 1 "t") [.connectCall, .wsOpen]) .wsClose).c.promise
       = some .pending ∧
     (clientStep (clientRun (mkClient "h" 1 "t") [.connectCall, .wsOpen]) .wsClose).evs = [] ∧
     (clientStep (clientRun (mkClient "h" 1 "t") [.connectCall, .wsOpen]) .wsClose).c.rc.status
       = .connecting) :=
  ⟨by decide,
   (C2_preauth_error_rejects_close_leaves_pending
      (clientRun (mkClient "h" 1 "t") [.connectCall, .wsOpen]) freshWS
      (by decide) (by decide) (by decide) (by decide) (by decide)).2⟩

/-! ### Claim C3: resource cleanup on every exit path -/

/-- A client that connected, authenticated, and then suffered a transport
error. -/
def errorExitClient : ClientExec :=
  clientRun (mkClient "h" 1 "t")
    [.connectCall, .wsOpen, .wsMessage (.authResponse true none), .wsError]

/-- Claim C3 counterexample: after a transport error ends a connected
session, the client reports `disconnected` yet the heartbeat timer is still
armed and the socket handle is still held with all callbacks attached: the
`onerror` handler (client.ts:120-124) runs no cleanup. -/
theorem C3_error_path_skips_cleanup_counterexample :
    errorExitClient.rc.status = .disconnected ∧
    errorExitClient.rc.pingInterval = true ∧
    errorExitClient.rc.ws = some freshWS := by decide

/-- Claim C3 (amended): full cleanup (heartbeat stopped, callbacks detached,
socket closed, handle nulled) runs on voluntary `disconnect()`, on
authentication failure, and on transport close — and is idempotent: a second
`disconnect()` changes no resource state and releases nothing further.  The
transport-*error* handler alone runs no cleanup (see the counterexample);
cleanup there happens only if a close event follows. -/
theorem C3_cleanup_on_disconnect_authfail_close
    (c : ClientExec) (w : WS) (e : Option String)
    (hws : c.rc.ws = some w) (hom : w.onmessage = true) (hcl : w.onclose = true) :
    ((clientStep c .disconnectCall).c.rc.pingInterval = false ∧
     (clientStep c .disconnectCall).c.rc.ws = none ∧
     (clientStep c .disconnectCall).c.released = c.released ++ [releasedWS]) ∧
    ((clientStep c (.wsMessage (.authResponse false e))).c.rc.pingInterval = false ∧
     (clientStep c (.wsMessage (.authResponse false e))).c.rc.ws = none ∧
     (clientStep c (.wsMessage (.authResponse false e))).c.released
       = c.released ++ [releasedWS]) ∧
    ((clientStep c .wsClose).c.rc.pingInterval = false ∧
     (clientStep c .wsClose).c.rc.ws = none ∧
     (clientStep c .wsClose).c.released = c.released ++ [releasedWS]) ∧
    ((clientStep (clientStep c .disconnectCall).c .disconnectCall).c.rc
       = (clientStep c .disconnectCall).c.rc ∧
     (clientStep (clientStep c .disconnectCall).c .disconnectCall).c.released
       = (clientStep c .disconnectCall).c.released) := by
  refine ⟨?_, ?_, ?_, ?_⟩
  · simp [clientStep, ClientExec.disconnectCall, ClientExec.cleanup, hws, ClientExec.emitE]
  · simp [clientStep, ClientExec.wsMessage, ClientExec.handleMessage, hws, hom,
      ClientExec.cleanup, ClientExec.emitE]
  · simp [clientStep, ClientExec.wsClose, hws, hcl, ClientExec.cleanup, ClientExec.emitE]
    split <;> simp
  · simp [clientStep, ClientExec.disconnectCall, ClientExec.cleanup, hws, ClientExec.emitE]

/-- Witness for C3 (amended): the hypotheses hold for the concrete client
that connected and authenticated. -/
theorem C3_cleanup_on_disconnect_authfail_close_witness :
    (clientRun (mkClient "h" 1 "t")
        [.connectCall, .wsOpen, .wsMessage (.authResponse true none)]).rc.ws
      = some freshWS ∧
    ((clientStep (clientRun (mkClient "h" 1 "t")
        [.connectCall, .wsOpen, .wsMessage (.authResponse true none)])
        .disconnectCall).c.rc.pingInterval = false ∧
     (clientStep (clientRun (mkClient "h" 1 "t")
        [.connectCall, .wsOpen, .wsMessage (.authResponse true none)])
        .disconnectCall).c.rc.ws = none ∧
     (clientStep (clientRun (mkClient "h" 1 "t")
        [.connectCall, .wsOpen, .wsMessage (.authResponse true none)])
        .disconnectCall).c.released
       = (clientRun (mkClient "h" 1 "t")
          [.connectCall, .wsOpen, .wsMessage (.authResponse true none)]).released
         ++ [releasedWS]) :=
  ⟨by decide,
   (C3_cleanup_on_disconnect_authfail_close
      (clientRun (mkClient "h" 1 "t")
        [.connectCall, .wsOpen, .wsMessage (.authResponse true none)])
      freshWS none (by decide) (by decide) (by decide)).1⟩

/-! ### Claim C5: heartbeat cadence -/

/-- Claim C5: the heartbeat period is 30 seconds; an incoming `pong` is
consumed silently (the step is a complete no-op: no event, no send, no state
or timer change); each timer expiry sends exactly one `ping` when the status
is `connected` (and the timer is armed and a socket is held) and none
otherwise; no step whatsoever sends a `ping` while the status is not
`connected`; and after `disconnect()` the timer is disarmed so an expiry
sends nothing. -/
theorem C5_heartbeat_cadence (c : ClientExec) (i : ClientInput) :
    pingIntervalMs = 30000 ∧
    clientStep c (.wsMessage .pong) = ⟨c, [], []⟩ ∧
    (clientStep c .tick).outs =
      (if c.rc.pingInterval ∧ c.rc.status = .connected ∧ c.rc.ws.isSome
       then [.ping] else []) ∧
    (c.rc.status ≠ .connected → WSMessage.ping ∉ (clientStep c i).outs) ∧
    (clientStep (clientStep c .disconnectCall).c .tick).outs = [] := by
  refine ⟨rfl, ?_, ?_, ?_, ?_⟩
  · dsimp only [clientStep]
    unfold ClientExec.wsMessage
    (repeat' split) <;> rfl
  · unfold clientStep ClientExec.tick
    split_ifs <;> simp_all [ClientExec.sendW]
  · intro hnc
    cases i with
    | connectCall =>
        dsimp only [clientStep]
        unfold ClientExec.connectCall
        split <;> simp [ClientExec.emitE]
    | disconnectCall =>
        dsimp only [clientStep]
        unfold ClientExec.disconnectCall
        simp
    | sendCall m =>
        dsimp only [clientStep]
        unfold ClientExec.sendCall
        split
        · next h => exact absurd h.2 hnc
        · simp
    | wsOpen =>
        dsimp only [clientStep]
        unfold ClientExec.wsOpen
        (repeat' split) <;> simp [ClientExec.sendW]
    | wsMessage m =>
        dsimp only [clientStep]
        unfold ClientExec.wsMessage ClientExec.handleMessage
        (repeat' split) <;> simp
    | wsError =>
        dsimp only [clientStep]
        unfold ClientExec.wsError
        (repeat' split) <;> simp
    | wsClose =>
        dsimp only [clientStep]
        unfold ClientExec.wsClose
        (repeat' split) <;> simp [apply_ite COut.outs]
    | tick =>
        dsimp only [clientStep]
        unfold ClientExec.tick
        split_ifs with h1 h2
        · exact absurd h2.1 hnc
        · simp
        · simp
  · unfold clientStep ClientExec.disconnectCall ClientExec.cleanup ClientExec.tick
      ClientExec.emitE
    cases hws : c.rc.ws <;> simp

/-- Witness for C5: the hypothesis of the no-ping-while-not-connected
conjunct is discharged for a fresh (disconnected) client at a timer expiry. -/
theorem C5_heartbeat_cadence_witness :
    (mkClient "h" 1 "t").rc.status ≠ .connected ∧
    WSMessage.ping ∉ (clientStep (mkClient "h" 1 "t") .tick).outs :=
  ⟨by decide,
   (C5_heartbeat_cadence (mkClient "h" 1 "t") .tick).2.2.2.1 (by decide)⟩

/-! ## The Instance Coordinator (`InstanceManager`, plugins/agents part)

Value-semantics embedding: the in-place mutation `tab.status = ...` of the
source becomes replacement of the first matching list entry.  (The
JS reference semantics of the delivered snapshots is modelled separately
for claim C8 below.) -/

/-- `InstanceTab` (client.ts:18-42).  The source field `alias` is spelled
`tabAlias` here because `alias` is a Lean command keyword. -/
structure Tab where
  id : String
  label : String
  isLocal : Bool
  status : ConnectionStatus
  tabAlias : Option String
  host : Option String
  port : Option Nat
  lastError : Option String
deriving DecidableEq

/-- `createLocalTab()` (client.ts:260-267). -/
def createLocalTab : Tab :=
  ⟨"local", "Local", true, .connected, none, none, none, none⟩

/-- `createRemoteTab(alias, host, port)` (client.ts:272-286). -/
def createRemoteTab (a : String) (h : String) (p : Nat) : Tab :=
  ⟨"remote-" ++ a, a, false, .disconnected, some a, some h, some p, none⟩

/-- `RemoteServerConfig` (the external configuration store): one stored
remote, `{host, port, token}`.  The last-connected timestamp lives in the
store; its update is recorded as the ghost `lastConnectedCalls`. -/
structure RemoteServerConfig where
  host : String
  port : Nat
  token : String
deriving DecidableEq

/-- JS `Map.get`. -/
def lookupA {α : Type} (a : String) : List (String × α) → Option α
  | [] => none
  | e :: es => if e.1 = a then some e.2 else lookupA a es

/-- JS `Map.set`: update in place if the key exists (insertion order kept),
append otherwise. -/
def setA {α : Type} (a : String) (v : α) : List (String × α) → List (String × α)
  | [] => [(a, v)]
  | e :: es => if e.1 = a then (a, v) :: es else e :: setA a v es

/-- JS `Map.delete`: remove the entry with the key. -/
def delA {α : Type} (a : String) : List (String × α) → List (String × α)
  | [] => []
  | e :: es => if e.1 = a then es else e :: delA a es

/-- The `InstanceManager` fields (index.ts:65-70) plus ghost history:
`pendingConnects` holds the aliases whose `selectTab` call is suspended in
`await client.connect()`; `notifications` records each `(tabs,
selectedIndex)` snapshot delivered to the state-change handler; `evicted`
records clients removed from the map (in their post-disconnect state);
`lastConnectedCalls` records the `updateLastConnected(alias)` calls. -/
structure InstanceManager where
  tabs : List Tab
  selectedIndex : Nat
  clients : List (String × ClientExec)
  remoteConfigs : List (String × RemoteServerConfig)
  pendingConnects : List String
  notifications : List (List Tab × Nat)
  evicted : List (String × ClientExec)
  lastConnectedCalls : List String
deriving DecidableEq

/-- `notifyStateChange()` (index.ts:292-296): deliver the tab array copy and
the selected index to the registered handler. -/
def notifyStateChange (m : InstanceManager) : InstanceManager :=
  { m with notifications := m.notifications ++ [(m.tabs, m.selectedIndex)] }

/-- The in-place mutation of `updateTabStatus` (index.ts:283-284). -/
def setTabStatus (st : ConnectionStatus) (err : Option String) (t : Tab) : Tab :=
  { t with status := st, lastError := err }

/-- `this.tabs.find(...)` followed by in-place mutation: replace the first
tab satisfying `p`. -/
def updateFirst (p : Tab → Bool) (f : Tab → Tab) : List Tab → List Tab
  | [] => []
  | t :: ts => if p t then f t :: ts else t :: updateFirst p f ts

/-- `updateTabStatus(tabId, status, error?)` (index.ts:280-287): mutate the
first tab with this id (if any) and notify.  A `connecting`/`connected`
update passes no error, clearing `lastError`. -/
def InstanceManager.updateTabStatus (m : InstanceManager) (tabId : String)
    (st : ConnectionStatus) (err : Option String) : InstanceManager :=
  match m.tabs.find? (fun t => t.id == tabId) with
  | none => m
  | some _ =>
      notifyStateChange
        { m with tabs := updateFirst (fun t => t.id == tabId) (setTabStatus st err) m.tabs }

/-- `handleClientEvent(alias, event)` (index.ts:260-275): find the tab by
alias; map lifecycle events onto its status; application `message` events
fall through the switch and do nothing. -/
def InstanceManager.handleClientEvent (m : InstanceManager) (a : String)
    (ev : RemoteClientEvent) : InstanceManager :=
  match m.tabs.find? (fun t => t.tabAlias == some a) with
  | none => m
  | some t =>
      match ev with
      | .connecting => m.updateTabStatus t.id .connecting none
      | .connected => m.updateTabStatus t.id .connected none
      | .disconnected e => m.updateTabStatus t.id .disconnected e
      | .message _ => m

/-- Deliver the events a client emitted during one step to the coordinator's
handler, in order. -/
def relayEvents (a : String) (evs : List RemoteClientEvent) (m : InstanceManager) :
    InstanceManager :=
  match evs with
  | [] => m
  | e :: es => relayEvents a es (m.handleClientEvent a e)

/-- The fresh coordinator (all fields empty, selected index 0). -/
def freshManager : InstanceManager := ⟨[], 0, [], [], [], [], [], []⟩

/-- The remote-loading loop of `initialize()` (index.ts:81-86): record each
config and append its tab, in configuration order. -/
def pushRemotes (m : InstanceManager) : List (String × RemoteServerConfig) → InstanceManager
  | [] => m
  | (a, cfg) :: rest =>
      pushRemotes
        { m with remoteConfigs := setA a cfg m.remoteConfigs,
                 tabs := m.tabs ++ [createRemoteTab a cfg.host cfg.port] } rest

/-- `initialize()` (index.ts:76-89): reset the tab list to the local tab,
load the configured remotes (`remotes` is the `listRemotes()` result),
notify once. -/
def initStep (m : InstanceManager) (remotes : List (String × RemoteServerConfig)) :
    InstanceManager :=
  notifyStateChange (pushRemotes { m with tabs := [createLocalTab] } remotes)

/-- The truthiness guard `!tab.alias || !tab.host || !tab.port`
(index.ts:220): JS falsy covers `undefined`, the empty string and `0`. -/
def tabConnectFields (t : Tab) : Option (String × String × Nat) :=
  match t.tabAlias, t.host, t.port with
  | some a, some h, some p => if a ≠ "" ∧ h ≠ "" ∧ p ≠ 0 then some (a, h, p) else none
  | _, _, _ => none

/-- The tail of `connectToRemote` from `updateTabStatus(tab.id,
'connecting')` on (index.ts:246-254): mark the tab connecting, then `await
client.connect()`.  If the client's no-op guard fires, the await resolves at
once and `updateLastConnected` runs; otherwise the synchronous part of
`connect()` runs (emitting `connecting` into the handler) and the caller
suspends — the second component is `true` and the continuation is performed
by `clientTransportStep` when the promise settles. -/
def connectAttempt (m : InstanceManager) (a : String) (t : Tab) (ce : ClientExec) :
    InstanceManager × Bool :=
  let m1 := m.updateTabStatus t.id .connecting none
  if ce.rc.status = .connecting ∨ ce.rc.status = .connected then
    ({ m1 with lastConnectedCalls := m1.lastConnectedCalls ++ [a] }, false)
  else
    let o := ce.connectCall
    let m2 := { m1 with clients := setA a o.c m1.clients }
    let m3 := relayEvents a o.evs m2
    ({ m3 with pendingConnects := m3.pendingConnects ++ [a] }, true)

/-- `connectToRemote(tab)` up to its suspension point (index.ts:219-255):
falsy-field guard; missing-configuration guard; reuse of a connected client;
client creation on first attempt (host/port taken from the tab, token from
the stored config). -/
def InstanceManager.connectToRemote (m : InstanceManager) (t : Tab) :
    InstanceManager × Bool :=
  match tabConnectFields t with
  | none => (m, false)
  | some (a, h, p) =>
      match lookupA a m.remoteConfigs with
      | none =>
          (m.updateTabStatus t.id .disconnected (some "Remote configuration not found"), false)
      | some cfg =>
          match lookupA a m.clients with
          | some ce =>
              if ce.rc.status = .connected then (m, false)
              else connectAttempt m a t ce
          | none =>
              let ce := mkClient h p cfg.token
              connectAttempt { m with clients := setA a ce m.clients } a t ce

/-- `selectTab(index)` (index.ts:123-137): out-of-range is a no-op; set the
selected index; a non-local `disconnected` tab triggers a connection
attempt; the final notification is deferred past the `await` — it fires here
only when the attempt did not suspend. -/
def InstanceManager.selectTabStep (m : InstanceManager) (i : Nat) : InstanceManager :=
  if i ≥ m.tabs.length then m
  else
    let m1 := { m with selectedIndex := i }
    match m1.tabs.get? i with
    | none => m1
    | some t =>
        if t.isLocal = false ∧ t.status = .disconnected then
          let r := m1.connectToRemote t
          if r.2 then r.1 else notifyStateChange r.1
        else notifyStateChange m1

/-- `selectNextTab()` (index.ts:142-145): wrap forward.  (The tab list is
never empty after initialization — the local tab persists.) -/
def InstanceManager.selectNextTabStep (m : InstanceManager) : InstanceManager :=
  m.selectTabStep ((m.selectedIndex + 1) % m.tabs.length)

/-- `selectPreviousTab()` (index.ts:150-153): wrap backward; the JS
`(i - 1 + len) % len` equals `(i + len - 1) % len` for `i ≥ 0`, `len ≥ 1`. -/
def InstanceManager.selectPreviousTabStep (m : InstanceManager) : InstanceManager :=
  m.selectTabStep ((m.selectedIndex + m.tabs.length - 1) % m.tabs.length)

/-- The loop of `disconnectAll()` over `clients.values()` (index.ts:159-161):
each `disconnect()` fires the client's `disconnected` event into the
handler).  The map itself is cleared by the caller afterwards. -/
def disconnectClients (m : InstanceManager) : List (String × ClientExec) → InstanceManager
  | [] => m
  | (a, ce) :: rest =>
      let o := ce.disconnectCall
      let m1 := relayEvents a o.evs m
      disconnectClients { m1 with evicted := m1.evicted ++ [(a, o.c)] } rest

/-- `disconnectAll()` (index.ts:158-172): disconnect every client, clear the
map, force every non-local tab to `disconnected` (direct field write — no
per-tab notification and `lastError` untouched), notify once at the end. -/
def InstanceManager.disconnectAllStep (m : InstanceManager) : InstanceManager :=
  let m1 := disconnectClients m m.clients
  let m2 := { m1 with clients := [] }
  notifyStateChange
    { m2 with tabs := m2.tabs.map fun t =>
        if t.isLocal then t else { t with status := .disconnected } }

/-- The keep decision of the `refresh()` filter callback (index.ts:183-196):
local tabs kept; a remote tab with a falsy alias dropped — the JS check
`if (!tab.alias) return false;` (index.ts:185) fires on `undefined` AND on
the empty string, before the `newAliases.has` test — a remote tab kept iff
its (truthy) alias is still configured. -/
def keepTab (newAliases : List String) (t : Tab) : Bool :=
  if t.isLocal then true
  else
    match t.tabAlias with
    | none => false
    | some a => if a = "" then false else newAliases.contains a

/-- The side effects of the `refresh()` filter callback, run over the
pre-refresh tab list in order (index.ts:183-196): a remote tab whose alias
disappeared has its client (if any) disconnected — the `disconnected` event
fires into `handleClientEvent` while the old tab array is still current —
and the client is evicted from the map.  A falsy alias (`undefined` or the
empty string; index.ts:185) returns `false` BEFORE the `newAliases.has`
test, so it runs no disconnect and evicts nothing. -/
def refreshDisconnects (newAliases : List String) :
    InstanceManager → List Tab → InstanceManager
  | m, [] => m
  | m, t :: ts =>
      let m1 :=
        if t.isLocal then m
        else
          match t.tabAlias with
          | none => m
          | some a =>
              if a = "" then m
              else if newAliases.contains a then m
              else
                match lookupA a m.clients with
                | none => m
                | some ce =>
                    let o := ce.disconnectCall
                    let m2 := relayEvents a o.evs m
                    { m2 with clients := delA a m2.clients,
                              evicted := m2.evicted ++ [(a, o.c)] }
      refreshDisconnects newAliases m1 ts

/-- The add-new-remotes loop of `refresh()` (index.ts:199-206): record each
config; append a tab for each alias with no existing tab. -/
def addNewRemoteTabs (m : InstanceManager) :
    List (String × RemoteServerConfig) → InstanceManager
  | [] => m
  | (a, cfg) :: rest =>
      let m1 := { m with remoteConfigs := setA a cfg m.remoteConfigs }
      let m2 :=
        match m1.tabs.find? (fun t => t.tabAlias == some a) with
        | some _ => m1
        | none => { m1 with tabs := m1.tabs ++ [createRemoteTab a cfg.host cfg.port] }
      addNewRemoteTabs m2 rest

/-- `refresh()` (index.ts:177-214): run the filter's side effects, drop the
tabs of deleted aliases, append tabs for new aliases, clamp the selected
index, notify once at the end.  `remotes` is the fresh `listRemotes()`
result. -/
def InstanceManager.refreshStep (m : InstanceManager)
    (remotes : List (String × RemoteServerConfig)) : InstanceManager :=
  let newAliases := remotes.map Prod.fst
  let m1 := refreshDisconnects newAliases m m.tabs
  let m2 := { m1 with tabs := m1.tabs.filter (keepTab newAliases) }
  let m3 := addNewRemoteTabs m2 remotes
  let m4 :=
    if m3.selectedIndex ≥ m3.tabs.length
    then { m3 with selectedIndex := max 0 (m3.tabs.length - 1) }
    else m3
  notifyStateChange m4

/-- A transport-side input to one client owned by the coordinator (the
coordinator itself is the only holder of client call references). -/
inductive TransportEvent
  | wsOpen
  | wsMessage (msg : WSMessage)
  | wsError
  | wsClose
  | tick
deriving DecidableEq

/-- Embed a transport event into the client input alphabet. -/
def TransportEvent.toInput : TransportEvent → ClientInput
  | .wsOpen => .wsOpen
  | .wsMessage m => .wsMessage m
  | .wsError => .wsError
  | .wsClose => .wsClose
  | .tick => .tick

/-- Delivery of one transport event to the client of alias `a`: run the
client step, relay its emitted events into `handleClientEvent`, and — if the
pending `connect()` promise just settled for a suspended `selectTab` —
resume the continuation (ghost `updateLastConnected` on resolve, then the
caller's single final notification; index.ts:248-254, 136). -/
def InstanceManager.clientTransportStep (m : InstanceManager) (a : String)
    (tev : TransportEvent) : InstanceManager :=
  match lookupA a m.clients with
  | none => m
  | some ce =>
      let o := clientStep ce tev.toInput
      let m1 := { m with clients := setA a o.c m.clients }
      let m2 := relayEvents a o.evs m1
      if ce.promise = some .pending ∧ o.c.promise ≠ some .pending ∧
          m2.pendingConnects.contains a then
        let m3 := { m2 with pendingConnects := m2.pendingConnects.erase a }
        let m4 :=
          if o.c.promise = some .resolved
          then { m3 with lastConnectedCalls := m3.lastConnectedCalls ++ [a] }
          else m3
        notifyStateChange m4
      else m2

/-- `getTabs()` (index.ts:101-103) at the value level. -/
def InstanceManager.getTabs (m : InstanceManager) : List Tab := m.tabs

/-- `getSelectedIndex()` (index.ts:108-110). -/
def InstanceManager.getSelectedIndex (m : InstanceManager) : Nat := m.selectedIndex

/-- `getSelectedTab()` (index.ts:115-117). -/
def InstanceManager.getSelectedTab (m : InstanceManager) : Option Tab :=
  m.tabs.get? m.selectedIndex

/-- One input to an initialized coordinator: a public operation or a
transport event for one of its clients. -/
inductive MgrInput
  | selectTab (i : Nat)
  | selectNextTab
  | selectPreviousTab
  | refreshCfg (remotes : List (String × RemoteServerConfig))
  | disconnectAll
  | transport (a : String) (tev : TransportEvent)
deriving DecidableEq

/-- Dispatch one coordinator input. -/
def mgrStep (m : InstanceManager) : MgrInput → InstanceManager
  | .selectTab i => m.selectTabStep i
  | .selectNextTab => m.selectNextTabStep
  | .selectPreviousTab => m.selectPreviousTabStep
  | .refreshCfg remotes => m.refreshStep remotes
  | .disconnectAll => m.disconnectAllStep
  | .transport a tev => m.clientTransportStep a tev

/-- Run a sequence of coordinator inputs. -/
def mgrRun (m : InstanceManager) : List MgrInput → InstanceManager
  | [] => m
  | i :: is => mgrRun (mgrStep m i) is

/-! ### Claim C1: the local tab invariant -/

/-- The local-tab invariant of a tab list: the local tab (exactly
`createLocalTab`) is first, and every later tab is non-local, has an id
other than `"local"`, and carries an alias. -/
def TabsInv (l : List Tab) : Prop :=
  l.head? = some createLocalTab ∧
  ∀ t ∈ l.tail, t.isLocal = false ∧ t.id ≠ "local" ∧ t.tabAlias.isSome = true

/-- The coordinator invariant: its tab list satisfies `TabsInv`. -/
def InstanceManager.Inv (m : InstanceManager) : Prop := TabsInv m.tabs

theorem tabsInv_cons {l : List Tab} (h : TabsInv l) :
    ∃ tl, l = createLocalTab :: tl ∧
      ∀ t ∈ tl, t.isLocal = false ∧ t.id ≠ "local" ∧ t.tabAlias.isSome = true := by
  obtain ⟨h1, h2⟩ := h
  cases l with
  | nil => simp at h1
  | cons hd tl =>
      simp only [List.head?_cons, Option.some.injEq] at h1
      subst h1
      exact ⟨tl, rfl, by simpa using h2⟩

theorem remote_id_ne_local (a : String) : ("remote-" ++ a : String) ≠ "local" := by
  intro hcontra
  have h1 : ("remote-" ++ a : String).length = ("local" : String).length := by
    rw [hcontra]
  rw [String.length_append] at h1
  have h2 : ("remote-" : String).length = 7 := rfl
  have h3 : ("local" : String).length = 5 := rfl
  rw [h2, h3] at h1
  omega

theorem mem_updateFirst {p : Tab → Bool} {f : Tab → Tab} {l : List Tab} {x : Tab}
    (hx : x ∈ updateFirst p f l) : x ∈ l ∨ ∃ y ∈ l, x = f y := by
  induction l with
  | nil => simp [updateFirst] at hx
  | cons t ts ih =>
      unfold updateFirst at hx
      by_cases hp : p t
      · rw [if_pos hp] at hx
        rcases List.mem_cons.mp hx with h | h
        · exact Or.inr ⟨t, List.mem_cons_self t ts, h⟩
        · exact Or.inl (List.mem_cons_of_mem t h)
      · rw [if_neg hp] at hx
        rcases List.mem_cons.mp hx with h | h
        · exact Or.inl (h ▸ List.mem_cons_self t ts)
        · rcases ih h with h' | ⟨y, hy, hxy⟩
          · exact Or.inl (List.mem_cons_of_mem t h')
          · exact Or.inr ⟨y, List.mem_cons_of_mem t hy, hxy⟩

theorem tabsInv_updateFirst (l : List Tab) (tabId : String) (st : ConnectionStatus)
    (e : Option String) (hInv : TabsInv l) (hne : tabId ≠ "local") :
    TabsInv (updateFirst (fun t => t.id == tabId) (setTabStatus st e) l) := by
  obtain ⟨tl, rfl, htl⟩ := tabsInv_cons hInv
  unfold updateFirst
  rw [if_neg (by simp [createLocalTab]; exact fun hcontra => hne hcontra.symm)]
  refine ⟨rfl, ?_⟩
  intro t ht
  simp only [List.tail_cons] at ht
  rcases mem_updateFirst ht with hmem | ⟨y, hy, rfl⟩
  · exact htl t hmem
  · obtain ⟨h1, h2, h3⟩ := htl y hy
    exact ⟨h1, h2, h3⟩

theorem tabsInv_append_remote (l : List Tab) (a hh : String) (p : Nat)
    (hInv : TabsInv l) : TabsInv (l ++ [createRemoteTab a hh p]) := by
  obtain ⟨tl, rfl, htl⟩ := tabsInv_cons hInv
  refine ⟨rfl, ?_⟩
  intro t ht
  simp only [List.cons_append, List.tail_cons] at ht
  rcases List.mem_append.mp ht with hmem | hmem
  · exact htl t hmem
  · simp only [List.mem_singleton] at hmem
    subst hmem
    exact ⟨rfl, remote_id_ne_local a, rfl⟩

theorem tabsInv_filter (l : List Tab) (ns : List String) (hInv : TabsInv l) :
    TabsInv (l.filter (keepTab ns)) := by
  obtain ⟨tl, rfl, htl⟩ := tabsInv_cons hInv
  rw [List.filter_cons_of_pos (by rfl)]
  refine ⟨rfl, ?_⟩
  intro t ht
  simp only [List.tail_cons] at ht
  exact htl t (List.mem_of_mem_filter ht)

theorem tabsInv_map_disconnect (l : List Tab) (hInv : TabsInv l) :
    TabsInv (l.map fun t => if t.isLocal then t else { t with status := .disconnected }) := by
  obtain ⟨tl, rfl, htl⟩ := tabsInv_cons hInv
  rw [List.map_cons]
  refine ⟨by rfl, ?_⟩
  intro t ht
  simp only [List.tail_cons, List.mem_map] at ht
  obtain ⟨y, hy, rfl⟩ := ht
  obtain ⟨h1, h2, h3⟩ := htl y hy
  rw [if_neg (by simp [h1])]
  exact ⟨h1, h2, h3⟩

theorem inv_notify {m : InstanceManager} (h : m.Inv) : (notifyStateChange m).Inv := h

theorem inv_updateTabStatus (m : InstanceManager) (tabId : String)
    (st : ConnectionStatus) (err : Option String) (h : m.Inv) (hne : tabId ≠ "local") :
    (m.updateTabStatus tabId st err).Inv := by
  unfold InstanceManager.updateTabStatus
  cases hf : m.tabs.find? (fun t => t.id == tabId) with
  | none => exact h
  | some t => exact tabsInv_updateFirst m.tabs tabId st err h hne

theorem find_alias_id_ne_local {m : InstanceManager} {a : String} {t : Tab} (h : m.Inv)
    (hf : m.tabs.find? (fun u => u.tabAlias == some a) = some t) : t.id ≠ "local" := by
  obtain ⟨tl, hl, htl⟩ := tabsInv_cons h
  have hmem := List.mem_of_find?_eq_some hf
  have hpt := List.find?_some hf
  rw [hl] at hmem
  rcases List.mem_cons.mp hmem with rfl | hmem'
  · simp [createLocalTab] at hpt
  · exact (htl t hmem').2.1

theorem inv_handleClientEvent (m : InstanceManager) (a : String) (ev : RemoteClientEvent)
    (h : m.Inv) : (m.handleClientEvent a ev).Inv := by
  unfold InstanceManager.handleClientEvent
  cases hf : m.tabs.find? (fun t => t.tabAlias == some a) with
  | none => exact h
  | some t =>
      have hne := find_alias_id_ne_local h hf
      cases ev with
      | connecting => exact inv_updateTabStatus m _ _ _ h hne
      | connected => exact inv_updateTabStatus m _ _ _ h hne
      | disconnected e => exact inv_updateTabStatus m _ _ _ h hne
      | message msg => exact h

theorem inv_relayEvents (a : String) (evs : List RemoteClientEvent)
    (m : InstanceManager) (h : m.Inv) : (relayEvents a evs m).Inv := by
  induction evs generalizing m with
  | nil => exact h
  | cons e es ih => exact ih _ (inv_handleClientEvent m a e h)

theorem inv_connectAttempt (m : InstanceManager) (a : String) (t : Tab) (ce : ClientExec)
    (h : m.Inv) (hne : t.id ≠ "local") : (connectAttempt m a t ce).1.Inv := by
  unfold connectAttempt
  by_cases hg : ce.rc.status = .connecting ∨ ce.rc.status = .connected
  · simp only [if_pos hg]
    exact inv_updateTabStatus m t.id .connecting none h hne
  · simp only [if_neg hg]
    exact inv_relayEvents a _ _ (inv_updateTabStatus m t.id .connecting none h hne)

theorem inv_connectToRemote (m : InstanceManager) (t : Tab) (h : m.Inv)
    (hne : t.id ≠ "local") : (m.connectToRemote t).1.Inv := by
  unfold InstanceManager.connectToRemote
  cases htf : tabConnectFields t with
  | none => exact h
  | some trip =>
      obtain ⟨a, hh, p⟩ := trip
      dsimp only
      cases hcfg : lookupA a m.remoteConfigs with
      | none => exact inv_updateTabStatus m _ _ _ h hne
      | some cfg =>
          dsimp only
          cases hcl : lookupA a m.clients with
          | some ce =>
              dsimp only
              by_cases hcs : ce.rc.status = .connected
              · rw [if_pos hcs]
                exact h
              · rw [if_neg hcs]
                exact inv_connectAttempt m a t ce h hne
          | none => exact inv_connectAttempt _ a t _ h hne

theorem inv_selectTabStep (m : InstanceManager) (i : Nat) (h : m.Inv) :
    (m.selectTabStep i).Inv := by
  unfold InstanceManager.selectTabStep
  split
  · exact h
  · dsimp only
    split
    · exact h
    · rename_i t hg
      split
      · rename_i hcond
        have htmem : t ∈ m.tabs := List.get?_mem hg
        have hne : t.id ≠ "local" := by
          obtain ⟨tl, hl, htl⟩ := tabsInv_cons h
          rw [hl] at htmem
          rcases List.mem_cons.mp htmem with rfl | hmem'
          · exact absurd hcond.1 (by simp [createLocalTab])
          · exact (htl t hmem').2.1
        split
        · exact inv_connectToRemote _ t h hne
        · exact inv_notify (inv_connectToRemote _ t h hne)
      · exact h

theorem inv_disconnectClients (cl : List (String × ClientExec)) (m : InstanceManager)
    (h : m.Inv) : (disconnectClients m cl).Inv := by
  induction cl generalizing m with
  | nil => exact h
  | cons e rest ih =>
      obtain ⟨a, ce⟩ := e
      exact ih _ (inv_relayEvents a _ _ h)

theorem inv_disconnectAllStep (m : InstanceManager) (h : m.Inv) :
    m.disconnectAllStep.Inv := by
  unfold InstanceManager.disconnectAllStep
  exact inv_notify (tabsInv_map_disconnect _ (inv_disconnectClients m.clients m h))

theorem inv_refreshDisconnects (ns : List String) (walk : List Tab)
    (m : InstanceManager) (h : m.Inv) : (refreshDisconnects ns m walk).Inv := by
  induction walk generalizing m with
  | nil => exact h
  | cons t ts ih =>
      unfold refreshDisconnects
      refine ih _ ?_
      by_cases h1 : t.isLocal = true
      · simp only [if_pos h1]
        exact h
      · simp only [if_neg h1]
        cases t.tabAlias with
        | none => exact h
        | some a =>
            by_cases h0 : a = ""
            · simp only [if_pos h0]
              exact h
            · simp only [if_neg h0]
              by_cases h2 : ns.contains a = true
              · simp only [if_pos h2]
                exact h
              · simp only [if_neg h2]
                cases lookupA a m.clients with
                | none => exact h
                | some ce => exact inv_relayEvents a _ _ h

theorem inv_addNewRemoteTabs (remotes : List (String × RemoteServerConfig))
    (m : InstanceManager) (h : m.Inv) : (addNewRemoteTabs m remotes).Inv := by
  induction remotes generalizing m with
  | nil => exact h
  | cons r rest ih =>
      obtain ⟨a, cfg⟩ := r
      unfold addNewRemoteTabs
      refine ih _ ?_
      cases ({ m with remoteConfigs := setA a cfg m.remoteConfigs } :
          InstanceManager).tabs.find? (fun t => t.tabAlias == some a) with
      | some _ => exact h
      | none => exact tabsInv_append_remote m.tabs a cfg.host cfg.port h

theorem inv_refreshStep (m : InstanceManager)
    (remotes : List (String × RemoteServerConfig)) (h : m.Inv) :
    (m.refreshStep remotes).Inv := by
  unfold InstanceManager.refreshStep
  apply inv_notify
  split
  · exact inv_addNewRemoteTabs remotes _
      (tabsInv_filter _ _ (inv_refreshDisconnects _ m.tabs m h))
  · exact inv_addNewRemoteTabs remotes _
      (tabsInv_filter _ _ (inv_refreshDisconnects _ m.tabs m h))

theorem inv_clientTransportStep (m : InstanceManager) (a : String) (tev : TransportEvent)
    (h : m.Inv) : (m.clientTransportStep a tev).Inv := by
  unfold InstanceManager.clientTransportStep
  cases lookupA a m.clients with
  | none => exact h
  | some ce =>
      dsimp only
      split
      · split
        · exact inv_notify (inv_relayEvents a _ _ h)
        · exact inv_notify (inv_relayEvents a _ _ h)
      · exact inv_relayEvents a _ _ h

theorem inv_mgrStep (m : InstanceManager) (inp : MgrInput) (h : m.Inv) :
    (mgrStep m inp).Inv := by
  cases inp with
  | selectTab i => exact inv_selectTabStep m i h
  | selectNextTab => exact inv_selectTabStep m _ h
  | selectPreviousTab => exact inv_selectTabStep m _ h
  | refreshCfg remotes => exact inv_refreshStep m remotes h
  | disconnectAll => exact inv_disconnectAllStep m h
  | transport a tev => exact inv_clientTransportStep m a tev h

theorem inv_mgrRun (m : InstanceManager) (inputs : List MgrInput) (h : m.Inv) :
    (mgrRun m inputs).Inv := by
  induction inputs generalizing m with
  | nil => exact h
  | cons i is ih => exact ih _ (inv_mgrStep m i h)

theorem inv_pushRemotes (remotes : List (String × RemoteServerConfig))
    (m : InstanceManager) (h : m.Inv) : (pushRemotes m remotes).Inv := by
  induction remotes generalizing m with
  | nil => exact h
  | cons r rest ih =>
      obtain ⟨a, cfg⟩ := r
      exact ih _ (tabsInv_append_remote m.tabs a cfg.host cfg.port h)

theorem inv_initStep (m : InstanceManager)
    (remotes : List (String × RemoteServerConfig)) : (initStep m remotes).Inv := by
  unfold initStep
  apply inv_notify
  exact inv_pushRemotes remotes _ ⟨rfl, by simp⟩

/-- Claim C1: after `initialize()` and any sequence of coordinator
operations and client lifecycle events, the tab list has the local tab —
id `"local"`, label `"Local"`, `isLocal`, status `connected` — at index 0,
and it is the only tab with `isLocal = true`. -/
theorem C1_local_tab_invariant (remotes : List (String × RemoteServerConfig))
    (inputs : List MgrInput) :
    (mgrRun (initStep freshManager remotes) inputs).tabs.get? 0 = some createLocalTab ∧
    createLocalTab.id = "local" ∧ createLocalTab.label = "Local" ∧
    createLocalTab.isLocal = true ∧ createLocalTab.status = .connected ∧
    ((mgrRun (initStep freshManager remotes) inputs).tabs.filter
        (fun t => t.isLocal)).length = 1 := by
  have h := inv_mgrRun _ inputs (inv_initStep freshManager remotes)
  obtain ⟨tl, hl, htl⟩ := tabsInv_cons h
  refine ⟨?_, rfl, rfl, rfl, rfl, ?_⟩
  · rw [hl]
    rfl
  · rw [hl, List.filter_cons_of_pos (by rfl)]
    have hnil : tl.filter (fun t => t.isLocal) = [] := by
      rw [List.filter_eq_nil_iff]
      intro t ht
      simp [(htl t ht).1]
    rw [hnil]
    rfl

/-! ### Claim C4: the authentication-failure path -/

/-- `Map.get` after `Map.set` of the same key. -/
theorem lookupA_setA {α : Type} (a : String) (v : α) (l : List (String × α)) :
    lookupA a (setA a v l) = some v := by
  induction l with
  | nil => simp [setA, lookupA]
  | cons e es ih =>
      unfold setA
      by_cases he : e.1 = a
      · rw [if_pos he]
        simp [lookupA]
      · rw [if_neg he]
        unfold lookupA
        rw [if_neg he]
        exact ih

/-- Effect of `auth_response{success:false}` on the client: disconnected,
socket torn down, timer stopped, promise settled to rejected, one
`disconnected` event with the server (or default) reason. -/
theorem authFailure_client (ce : ClientExec) (w : WS) (e : Option String)
    (hws : ce.rc.ws = some w) (hom : w.onmessage = true) :
    (clientStep ce (.wsMessage (.authResponse false e))).c.rc.status = .disconnected ∧
    (clientStep ce (.wsMessage (.authResponse false e))).c.rc.ws = none ∧
    (clientStep ce (.wsMessage (.authResponse false e))).c.rc.pingInterval = false ∧
    (clientStep ce (.wsMessage (.authResponse false e))).c.promise
      = settleP ce.promise (.rejected (e.getD "Authentication failed")) ∧
    (clientStep ce (.wsMessage (.authResponse false e))).evs
      = [.disconnected (some (e.getD "Authentication failed"))] := by
  simp [clientStep, ClientExec.wsMessage, hws, hom, ClientExec.handleMessage,
    ClientExec.cleanup, ClientExec.emitE]

/-- Updating the first tab with the id of the first alias-`a` match keeps it
the first alias-`a` match, now carrying the updated fields.  The hypothesis
`h2` rules out an unrelated earlier tab sharing the id. -/
theorem find_alias_updateFirst (l : List Tab) (a : String) (t : Tab) (f : Tab → Tab)
    (h1 : l.find? (fun u => u.tabAlias == some a) = some t)
    (h2 : ∀ u ∈ l, u.id = t.id → u.tabAlias = some a)
    (h3 : (f t).tabAlias = t.tabAlias) :
    (updateFirst (fun u => u.id == t.id) f l).find? (fun u => u.tabAlias == some a)
      = some (f t) := by
  induction l with
  | nil => simp at h1
  | cons u us ih =>
      by_cases hu : (u.tabAlias == some a) = true
      · rw [(List.find?_cons_of_pos us hu :
            List.find? (fun v => v.tabAlias == some a) (u :: us) = some u)] at h1
        have hut : u = t := by simpa using h1
        subst hut
        unfold updateFirst
        rw [if_pos (by simp)]
        have hta : u.tabAlias = some a := by simpa using hu
        exact (List.find?_cons_of_pos us (by simp [h3, hta]) :
            List.find? (fun v => v.tabAlias == some a) (f u :: us) = some (f u))
      · rw [(List.find?_cons_of_neg us hu :
            List.find? (fun v => v.tabAlias == some a) (u :: us)
              = List.find? (fun v => v.tabAlias == some a) us)] at h1
        have hne : (u.id == t.id) = false := by
          by_cases hid : u.id = t.id
          · exact absurd (by simp [h2 u (List.mem_cons_self u us) hid]) hu
          · simpa using hid
        unfold updateFirst
        rw [if_neg (by simp [hne])]
        rw [(List.find?_cons_of_neg (updateFirst (fun v => v.id == t.id) f us) hu :
            List.find? (fun v => v.tabAlias == some a)
                (u :: updateFirst (fun v => v.id == t.id) f us)
              = List.find? (fun v => v.tabAlias == some a)
                  (updateFirst (fun v => v.id == t.id) f us))]
        exact ih h1 (fun v hv => h2 v (List.mem_cons_of_mem u hv))

/-- Claim C4: a `connecting` client receiving `auth_response{success:false,
error}` ends `disconnected` with the transport torn down and the pending
`connect()` promise rejected with the server-supplied reason (default
"Authentication failed" when absent), and the corresponding tab ends
`disconnected` with `lastError` equal to that reason. -/
theorem C4_auth_failure_path (m : InstanceManager) (a : String) (ce : ClientExec)
    (w : WS) (t : Tab) (e : Option String)
    (hcl : lookupA a m.clients = some ce)
    (hst : ce.rc.status = .connecting)
    (hws : ce.rc.ws = some w) (hom : w.onmessage = true)
    (hp : ce.promise = some .pending)
    (ht : m.tabs.find? (fun u => u.tabAlias == some a) = some t)
    (hid : ∀ u ∈ m.tabs, u.id = t.id → u.tabAlias = some a) :
    lookupA a (m.clientTransportStep a (.wsMessage (.authResponse false e))).clients
      = some (clientStep ce (.wsMessage (.authResponse false e))).c ∧
    (clientStep ce (.wsMessage (.authResponse false e))).c.rc.status = .disconnected ∧
    (clientStep ce (.wsMessage (.authResponse false e))).c.rc.ws = none ∧
    (clientStep ce (.wsMessage (.authResponse false e))).c.promise
      = some (.rejected (e.getD "Authentication failed")) ∧
    (m.clientTransportStep a (.wsMessage (.authResponse false e))).tabs.find?
        (fun u => u.tabAlias == some a)
      = some (setTabStatus .disconnected (some (e.getD "Authentication failed")) t) := by
  obtain ⟨hs1, hs2, hs3, hs4, hs5⟩ := authFailure_client ce w e hws hom
  have hfind : m.tabs.find? (fun u => u.id == t.id) ≠ none := by
    intro hnone
    rw [List.find?_eq_none] at hnone
    exact hnone t (List.mem_of_find?_eq_some ht) (by simp)
  have htabs :
      (m.clientTransportStep a (.wsMessage (.authResponse false e))).tabs
        = updateFirst (fun u => u.id == t.id)
            (setTabStatus .disconnected (some (e.getD "Authentication failed"))) m.tabs ∧
      (m.clientTransportStep a (.wsMessage (.authResponse false e))).clients
        = setA a (clientStep ce (.wsMessage (.authResponse false e))).c m.clients := by
    unfold InstanceManager.clientTransportStep
    rw [hcl]
    dsimp only [TransportEvent.toInput]
    rw [hs5]
    simp only [relayEvents]
    unfold InstanceManager.handleClientEvent
    dsimp only
    rw [ht]
    dsimp only
    unfold InstanceManager.updateTabStatus
    cases hf : m.tabs.find? (fun u => u.id == t.id) with
    | none => exact absurd hf hfind
    | some u0 =>
        dsimp only [notifyStateChange]
        split
        · split <;> exact ⟨rfl, rfl⟩
        · exact ⟨rfl, rfl⟩
  refine ⟨?_, hs1, hs2, ?_, ?_⟩
  · rw [htabs.2]
    exact lookupA_setA a _ m.clients
  · rw [hs4, hp]
    rfl
  · rw [htabs.1]
    exact find_alias_updateFirst m.tabs a t _ ht hid rfl

/-- A stored remote configuration used by the concrete scenarios. -/
def cfg1 : RemoteServerConfig := ⟨"host1", 80, "tok"⟩

/-- Concrete scenario for C4: one remote `"r1"`, selected (connection
suspended), transport opened (auth sent), `auth_response` still pending. -/
def c4mgr : InstanceManager :=
  mgrRun (initStep freshManager [("r1", cfg1)]) [.selectTab 1, .transport "r1" .wsOpen]

/-- The client of `"r1"` in the C4 scenario. -/
def c4client : ClientExec := (lookupA "r1" c4mgr.clients).getD (mkClient "" 0 "")

/-- The tab of `"r1"` in the C4 scenario. -/
def c4tab : Tab :=
  (c4mgr.tabs.find? (fun u => u.tabAlias == some "r1")).getD createLocalTab

/-- Witness for C4: the hypotheses hold in the concrete scenario with the
scripted reply `auth_response{success:false, error:"bad token"}`, and the
tab ends `disconnected` with `lastError = "bad token"`. -/
theorem C4_auth_failure_path_witness :
    lookupA "r1" c4mgr.clients = some c4client ∧
    c4client.rc.status = .connecting ∧
    (c4mgr.clientTransportStep "r1"
        (.wsMessage (.authResponse false (some "bad token")))).tabs.find?
        (fun u => u.tabAlias == some "r1")
      = some (setTabStatus .disconnected (some "bad token") c4tab) :=
  ⟨by decide, by decide,
   (C4_auth_failure_path c4mgr "r1" c4client freshWS c4tab (some "bad token")
      (by decide) (by decide) (by decide) (by decide) (by decide) (by decide)
      (by decide)).2.2.2.2⟩

/-! ### Claim C7: notifications per logical mutation -/

theorem pushRemotes_notifications (remotes : List (String × RemoteServerConfig))
    (m : InstanceManager) : (pushRemotes m remotes).notifications = m.notifications := by
  induction remotes generalizing m with
  | nil => rfl
  | cons r rest ih =>
      obtain ⟨a, cfg⟩ := r
      exact ih _

/-- Concrete scenario for C7: an initialized coordinator with one
(disconnected) remote. -/
def c7mgr : InstanceManager := initStep freshManager [("r1", cfg1)]

/-- Claim C7 counterexample: `selectTab` onto a disconnected remote delivers
two state-change notifications before the connection even settles (one from
`updateTabStatus('connecting')` inside `connectToRemote`, one from relaying
the client's own `connecting` event) — not the claimed exactly one. -/
theorem C7_counterexample :
    (mgrStep c7mgr (.selectTab 1)).notifications.length
      ≠ c7mgr.notifications.length + 1 := by decide

/-- Claim C7 (amended): every notification carries the full tab list and the
selected index, but the per-operation count is one only for operations that
trigger no client activity: `initialize()` notifies exactly once;
`selectTab` on an in-range tab that does not start a connection attempt
notifies exactly once (with the full list and the new index); out-of-range
`selectTab` notifies zero times (full no-op); `disconnectAll()` with no live
clients notifies exactly once.  Operations that trigger client lifecycle
events notify once per tab-status update in addition (see the
counterexample). -/
theorem C7_notification_batching (m : InstanceManager)
    (remotes : List (String × RemoteServerConfig)) (i : Nat) (t : Tab) :
    ((initStep m remotes).notifications
       = m.notifications
         ++ [((initStep m remotes).tabs, (initStep m remotes).selectedIndex)]) ∧
    (m.tabs.get? i = some t → (t.isLocal = true ∨ t.status ≠ .disconnected) →
       (m.selectTabStep i).notifications = m.notifications ++ [(m.tabs, i)]) ∧
    (i ≥ m.tabs.length → m.selectTabStep i = m) ∧
    (m.clients = [] →
       m.disconnectAllStep.notifications.length = m.notifications.length + 1) := by
  refine ⟨?_, ?_, ?_, ?_⟩
  · unfold initStep
    simp [notifyStateChange, pushRemotes_notifications]
  · intro hg hcond
    have hlt : ¬ i ≥ m.tabs.length := by
      intro hge
      rw [List.get?_eq_none.mpr hge] at hg
      exact absurd hg (by simp)
    have hcf : ¬(t.isLocal = false ∧ t.status = .disconnected) := by
      rcases hcond with hh | hh
      · intro hx
        rw [hh] at hx
        exact absurd hx.1 (by simp)
      · intro hx
        exact hh hx.2
    unfold InstanceManager.selectTabStep
    rw [if_neg hlt]
    dsimp only
    rw [hg]
    dsimp only
    rw [if_neg hcf]
    simp [notifyStateChange]
  · intro hge
    unfold InstanceManager.selectTabStep
    rw [if_pos hge]
  · intro hcl
    unfold InstanceManager.disconnectAllStep
    rw [hcl]
    simp [disconnectClients, notifyStateChange]

/-- Witness for C7 (amended): selecting the (in-range, local) tab 0 of the
concrete scenario delivers exactly one notification with the full list. -/
theorem C7_notification_batching_witness :
    c7mgr.tabs.get? 0 = some createLocalTab ∧
    (c7mgr.selectTabStep 0).notifications = c7mgr.notifications ++ [(c7mgr.tabs, 0)] :=
  ⟨by decide,
   (C7_notification_batching c7mgr [] 0 createLocalTab).2.1 (by decide)
     (Or.inl (by decide))⟩

/-! ### Claim C9: selecting a connected tab issues no new connection attempt -/

theorem tabConnectFields_alias (t : Tab) (a hh : String) (p : Nat)
    (hcf : tabConnectFields t = some (a, hh, p)) : t.tabAlias = some a := by
  unfold tabConnectFields at hcf
  cases hta : t.tabAlias with
  | none => rw [hta] at hcf; exact absurd hcf (by simp)
  | some a' =>
      cases hth : t.host with
      | none => rw [hta, hth] at hcf; exact absurd hcf (by simp)
      | some h' =>
          cases htp : t.port with
          | none => rw [hta, hth, htp] at hcf; exact absurd hcf (by simp)
          | some p' =>
              rw [hta, hth, htp] at hcf
              dsimp only at hcf
              split at hcf
              · simp only [Option.some.injEq, Prod.mk.injEq] at hcf
                exact congrArg some hcf.1
              · exact absurd hcf (by simp)

theorem get?_updateFirst (p : Tab → Bool) (f : Tab → Tab) (l : List Tab) (i : Nat)
    (u : Tab) (hg : l.get? i = some u) :
    (updateFirst p f l).get? i = some u ∨ (updateFirst p f l).get? i = some (f u) := by
  induction l generalizing i with
  | nil => simp at hg
  | cons x xs ih =>
      cases i with
      | zero =>
          have hxu : x = u := by simpa using hg
          subst hxu
          unfold updateFirst
          by_cases hp : p x
          · rw [if_pos hp]
            right
            rfl
          · rw [if_neg hp]
            left
            rfl
      | succ n =>
          unfold updateFirst
          by_cases hp : p x
          · rw [if_pos hp]
            left
            simpa using hg
          · rw [if_neg hp]
            simpa using ih n (by simpa using hg)

theorem updateTabStatus_clients (m : InstanceManager) (tid : String)
    (st : ConnectionStatus) (err : Option String) :
    (m.updateTabStatus tid st err).clients = m.clients := by
  unfold InstanceManager.updateTabStatus
  cases m.tabs.find? (fun t => t.id == tid) <;> rfl

theorem updateTabStatus_get?_alias (m : InstanceManager) (tid : String)
    (st : ConnectionStatus) (err : Option String) (i : Nat) (t : Tab)
    (hg : m.tabs.get? i = some t) :
    ∃ t', (m.updateTabStatus tid st err).tabs.get? i = some t' ∧
      t'.tabAlias = t.tabAlias := by
  unfold InstanceManager.updateTabStatus
  cases m.tabs.find? (fun u => u.id == tid) with
  | none => exact ⟨t, hg, rfl⟩
  | some u =>
      rcases get?_updateFirst (fun u => u.id == tid) (setTabStatus st err) m.tabs i t hg
        with hh | hh
      · exact ⟨t, hh, rfl⟩
      · exact ⟨setTabStatus st err t, hh, rfl⟩

/-- One `selectTab` aimed at a tab whose client is already `connected`
leaves the client map untouched (no client created or replaced, nothing
sent) and keeps a tab with the same alias at the index. -/
theorem selectTab_connected_noop (m : InstanceManager) (i : Nat) (t : Tab) (a : String)
    (ce : ClientExec)
    (hg : m.tabs.get? i = some t) (ha : t.tabAlias = some a)
    (hcl : lookupA a m.clients = some ce) (hconn : ce.rc.status = .connected) :
    (m.selectTabStep i).clients = m.clients ∧
    ∃ t', (m.selectTabStep i).tabs.get? i = some t' ∧ t'.tabAlias = some a := by
  have hlt : ¬ i ≥ m.tabs.length := by
    intro hge
    rw [List.get?_eq_none.mpr hge] at hg
    exact absurd hg (by simp)
  unfold InstanceManager.selectTabStep
  rw [if_neg hlt]
  dsimp only
  rw [hg]
  dsimp only
  by_cases hcond : t.isLocal = false ∧ t.status = .disconnected
  · rw [if_pos hcond]
    unfold InstanceManager.connectToRemote
    cases hcf : tabConnectFields t with
    | none =>
        dsimp only
        exact ⟨rfl, t, hg, ha⟩
    | some trip =>
        obtain ⟨a', h', p'⟩ := trip
        have haa : a' = a := by
          have h2 := tabConnectFields_alias t a' h' p' hcf
          rw [ha] at h2
          exact (Option.some.inj h2).symm
        subst haa
        dsimp only
        cases hcfgL : lookupA a' m.remoteConfigs with
        | none =>
            dsimp only
            refine ⟨updateTabStatus_clients _ _ _ _, ?_⟩
            obtain ⟨t', hg', ha'⟩ := updateTabStatus_get?_alias
              ({ m with selectedIndex := i }) t.id .disconnected
              (some "Remote configuration not found") i t hg
            exact ⟨t', hg', by rw [ha', ha]⟩
        | some cfg =>
            dsimp only
            rw [hcl]
            dsimp only
            rw [if_pos hconn]
            exact ⟨rfl, t, hg, ha⟩
  · rw [if_neg hcond]
    exact ⟨rfl, t, hg, ha⟩

/-- Repeated `selectTab i`. -/
def selectTabIter (m : InstanceManager) (i : Nat) : Nat → InstanceManager
  | 0 => m
  | n + 1 => (selectTabIter m i n).selectTabStep i

/-- The number of `auth` frames a client has ever sent. -/
def authMsgCount (ce : ClientExec) : Nat := (ce.sent.filter WSMessage.isAuth).length

/-- The total number of `auth` frames sent by all owned clients. -/
def authTotal (m : InstanceManager) : Nat :=
  (m.clients.map (fun e => authMsgCount e.2)).sum

/-- Claim C9: while the client of a remote tab is `connected`, any number of
repeated `selectTab` calls on that tab leaves the client map untouched and
sends no further `auth` frame: the total stays at whatever the original
handshake sent. -/
theorem C9_connected_no_reconnect (m : InstanceManager) (i : Nat) (t : Tab)
    (a : String) (ce : ClientExec) (n : Nat)
    (hg : m.tabs.get? i = some t) (ha : t.tabAlias = some a)
    (hcl : lookupA a m.clients = some ce) (hconn : ce.rc.status = .connected) :
    (selectTabIter m i n).clients = m.clients ∧
    authTotal (selectTabIter m i n) = authTotal m := by
  have key : ∀ k, (selectTabIter m i k).clients = m.clients ∧
      ∃ t', (selectTabIter m i k).tabs.get? i = some t' ∧ t'.tabAlias = some a := by
    intro k
    induction k with
    | zero => exact ⟨rfl, t, hg, ha⟩
    | succ j ih =>
        obtain ⟨hc, t', hg', ha'⟩ := ih
        have hstep := selectTab_connected_noop (selectTabIter m i j) i t' a ce hg' ha'
          (by rw [hc]; exact hcl) hconn
        exact ⟨hstep.1.trans hc, hstep.2⟩
  refine ⟨(key n).1, ?_⟩
  unfold authTotal
  rw [(key n).1]

/-- Concrete scenario for C9: one remote `"r1"`, selected, transport opened
(`auth` sent once), authentication succeeded. -/
def c9mgr : InstanceManager :=
  mgrRun (initStep freshManager [("r1", cfg1)])
    [.selectTab 1, .transport "r1" .wsOpen,
     .transport "r1" (.wsMessage (.authResponse true none))]

/-- The `"r1"` tab of the C9 scenario. -/
def c9tab : Tab := (c9mgr.tabs.get? 1).getD createLocalTab

/-- The `"r1"` client of the C9 scenario. -/
def c9client : ClientExec := (lookupA "r1" c9mgr.clients).getD (mkClient "" 0 "")

/-- Witness for C9: in the connected scenario exactly one `auth` frame was
sent during the handshake, and after three more selections of the connected
tab the total is still one. -/
theorem C9_connected_no_reconnect_witness :
    authTotal c9mgr = 1 ∧ c9client.rc.status = .connected ∧
    authTotal (selectTabIter c9mgr 1 3) = 1 := by
  refine ⟨by decide, by decide, ?_⟩
  have hiter := C9_connected_no_reconnect c9mgr 1 c9tab "r1" c9client 3
    (by decide) (by decide) (by decide) (by decide)
  rw [hiter.2]
  decide

/-! ### Claims C6 and C10: `refresh()` reconciliation -/

/-- The (id, alias, isLocal) keys of a tab list; status updates preserve
them. -/
def tabKeys (l : List Tab) : List (String × Option String × Bool) :=
  l.map (fun t => (t.id, t.tabAlias, t.isLocal))

theorem tabKeys_updateFirst (p : Tab → Bool) (st : ConnectionStatus)
    (err : Option String) (l : List Tab) :
    tabKeys (updateFirst p (setTabStatus st err) l) = tabKeys l := by
  induction l with
  | nil => rfl
  | cons x xs ih =>
      unfold updateFirst
      by_cases hp : p x
      · rw [if_pos hp]
        rfl
      · rw [if_neg hp]
        unfold tabKeys at ih ⊢
        simp only [List.map_cons, ih]

theorem hidm_of_tabKeys_eq {l l' : List Tab} (hk : tabKeys l' = tabKeys l)
    (hidm : ∀ u ∈ l, ∀ v ∈ l, u.id = v.id → u.tabAlias = v.tabAlias) :
    ∀ u ∈ l', ∀ v ∈ l', u.id = v.id → u.tabAlias = v.tabAlias := by
  intro u hu v hv he
  have hu' : (u.id, u.tabAlias, u.isLocal) ∈ tabKeys l := by
    rw [← hk]
    exact List.mem_map_of_mem _ hu
  have hv' : (v.id, v.tabAlias, v.isLocal) ∈ tabKeys l := by
    rw [← hk]
    exact List.mem_map_of_mem _ hv
  obtain ⟨u0, hu0, hku⟩ := List.mem_map.mp hu'
  obtain ⟨v0, hv0, hkv⟩ := List.mem_map.mp hv'
  simp only [Prod.mk.injEq] at hku hkv
  obtain ⟨hui, hua, _⟩ := hku
  obtain ⟨hvi, hva, _⟩ := hkv
  rw [← hua, ← hva]
  exact hidm u0 hu0 v0 hv0 (by rw [hui, hvi, he])

/-- A tab carrying an alias is never the local tab. -/
theorem inv_alias_nonlocal {m : InstanceManager} (hInv : m.Inv) :
    ∀ t ∈ m.tabs, t.tabAlias.isSome = true → t.isLocal = false := by
  obtain ⟨tl, hl, htl⟩ := tabsInv_cons hInv
  intro t ht ha
  rw [hl] at ht
  rcases List.mem_cons.mp ht with rfl | hmem
  · simp [createLocalTab] at ha
  · exact (htl t hmem).1

theorem filter_updateFirst_drop (l : List Tab) (p keepP : Tab → Bool) (f : Tab → Tab)
    (h : ∀ x ∈ l, p x = true → keepP x = false ∧ keepP (f x) = false) :
    (updateFirst p f l).filter keepP = l.filter keepP := by
  induction l with
  | nil => rfl
  | cons x xs ih =>
      unfold updateFirst
      by_cases hp : p x
      · rw [if_pos hp]
        obtain ⟨h1, h2⟩ := h x (List.mem_cons_self x xs) hp
        rw [List.filter_cons_of_neg (by simp [h2]), List.filter_cons_of_neg (by simp [h1])]
      · rw [if_neg hp]
        by_cases hk : keepP x
        · rw [List.filter_cons_of_pos hk, List.filter_cons_of_pos hk,
            ih (fun y hy => h y (List.mem_cons_of_mem x hy))]
        · rw [List.filter_cons_of_neg hk, List.filter_cons_of_neg hk]
          exact ih (fun y hy => h y (List.mem_cons_of_mem x hy))

theorem find?_filter_keep (l : List Tab) (q keepP : Tab → Bool)
    (h : ∀ x ∈ l, q x = true → keepP x = true) :
    (l.filter keepP).find? q = l.find? q := by
  induction l with
  | nil => rfl
  | cons x xs ih =>
      by_cases hk : keepP x
      · rw [List.filter_cons_of_pos hk]
        by_cases hq : q x
        · rw [(List.find?_cons_of_pos (xs.filter keepP) hq :
              List.find? q (x :: xs.filter keepP) = some x),
            (List.find?_cons_of_pos xs hq : List.find? q (x :: xs) = some x)]
        · rw [(List.find?_cons_of_neg (xs.filter keepP) hq :
              List.find? q (x :: xs.filter keepP) = List.find? q (xs.filter keepP)),
            (List.find?_cons_of_neg xs hq : List.find? q (x :: xs) = List.find? q xs)]
          exact ih (fun y hy => h y (List.mem_cons_of_mem x hy))
      · rw [List.filter_cons_of_neg hk]
        have hq : q x = false := by
          by_cases hqx : q x = true
          · exact absurd (h x (List.mem_cons_self x xs) hqx) hk
          · simpa using hqx
        rw [(List.find?_cons_of_neg xs (by simp [hq]) :
            List.find? q (x :: xs) = List.find? q xs)]
        exact ih (fun y hy => h y (List.mem_cons_of_mem x hy))

theorem find?_append_single (l : List Tab) (q : Tab → Bool) (x : Tab)
    (hx : q x = false) : (l ++ [x]).find? q = l.find? q := by
  induction l with
  | nil =>
      simp only [List.nil_append]
      rw [(List.find?_cons_of_neg [] (by simp [hx]) :
          List.find? q (x :: []) = List.find? q [])]
  | cons y ys ih =>
      by_cases hy : q y
      · rw [List.cons_append,
          (List.find?_cons_of_pos (ys ++ [x]) hy :
            List.find? q (y :: (ys ++ [x])) = some y),
          (List.find?_cons_of_pos ys hy : List.find? q (y :: ys) = some y)]
      · rw [List.cons_append,
          (List.find?_cons_of_neg (ys ++ [x]) hy :
            List.find? q (y :: (ys ++ [x])) = List.find? q (ys ++ [x])),
          (List.find?_cons_of_neg ys hy : List.find? q (y :: ys) = List.find? q ys)]
        exact ih

theorem lookupA_not_mem {α : Type} (a : String) (l : List (String × α))
    (h : a ∉ l.map Prod.fst) : lookupA a l = none := by
  induction l with
  | nil => rfl
  | cons e es ih =>
      unfold lookupA
      rw [if_neg (by simp at h; exact fun he => h.1 he.symm)]
      exact ih (by simp at h ⊢; exact h.2)

theorem lookupA_delA_self {α : Type} (a : String) (l : List (String × α))
    (hnd : (l.map Prod.fst).Nodup) : lookupA a (delA a l) = none := by
  induction l with
  | nil => rfl
  | cons e es ih =>
      have hnd' : e.1 ∉ es.map Prod.fst ∧ (es.map Prod.fst).Nodup := by
        simpa using hnd
      unfold delA
      by_cases he : e.1 = a
      · rw [if_pos he]
        apply lookupA_not_mem
        rw [← he]
        exact hnd'.1
      · rw [if_neg he]
        unfold lookupA
        rw [if_neg he]
        exact ih hnd'.2

theorem lookupA_delA_ne {α : Type} (a b : String) (l : List (String × α))
    (hne : b ≠ a) : lookupA b (delA a l) = lookupA b l := by
  induction l with
  | nil => rfl
  | cons e es ih =>
      simp only [delA]
      by_cases he : e.1 = a
      · rw [if_pos he]
        simp only [lookupA]
        rw [if_neg (by rw [he]; exact fun hc => hne hc.symm)]
      · rw [if_neg he]
        simp only [lookupA]
        by_cases hb : e.1 = b
        · rw [if_pos hb, if_pos hb]
        · rw [if_neg hb, if_neg hb]
          exact ih

theorem delA_keys_sublist {α : Type} (a : String) (l : List (String × α)) :
    ((delA a l).map Prod.fst).Sublist (l.map Prod.fst) := by
  induction l with
  | nil => exact List.Sublist.refl _
  | cons e es ih =>
      unfold delA
      by_cases he : e.1 = a
      · rw [if_pos he]
        exact List.sublist_cons_of_sublist _ (List.Sublist.refl _)
      · rw [if_neg he]
        simpa using List.Sublist.cons₂ e.1 ih

theorem disconnectCall_resources (ce : ClientExec) :
    ce.disconnectCall.c.rc.status = .disconnected ∧ ce.disconnectCall.c.rc.ws = none ∧
    ce.disconnectCall.c.rc.pingInterval = false := by
  unfold ClientExec.disconnectCall ClientExec.cleanup ClientExec.emitE
  cases hws : ce.rc.ws <;> simp [hws]

theorem updateTabStatus_refresh_frame (m : InstanceManager) (tid : String)
    (st : ConnectionStatus) (err : Option String) :
    (m.updateTabStatus tid st err).clients = m.clients ∧
    (m.updateTabStatus tid st err).evicted = m.evicted ∧
    (m.updateTabStatus tid st err).selectedIndex = m.selectedIndex ∧
    (m.updateTabStatus tid st err).remoteConfigs = m.remoteConfigs ∧
    tabKeys (m.updateTabStatus tid st err).tabs = tabKeys m.tabs := by
  unfold InstanceManager.updateTabStatus
  cases m.tabs.find? (fun t => t.id == tid) with
  | none => exact ⟨rfl, rfl, rfl, rfl, rfl⟩
  | some u => exact ⟨rfl, rfl, rfl, rfl, tabKeys_updateFirst _ st err m.tabs⟩

theorem handleClientEvent_refresh_frame (m : InstanceManager) (a : String)
    (ev : RemoteClientEvent) :
    (m.handleClientEvent a ev).clients = m.clients ∧
    (m.handleClientEvent a ev).evicted = m.evicted ∧
    (m.handleClientEvent a ev).selectedIndex = m.selectedIndex ∧
    (m.handleClientEvent a ev).remoteConfigs = m.remoteConfigs ∧
    tabKeys (m.handleClientEvent a ev).tabs = tabKeys m.tabs := by
  unfold InstanceManager.handleClientEvent
  cases m.tabs.find? (fun t => t.tabAlias == some a) with
  | none => exact ⟨rfl, rfl, rfl, rfl, rfl⟩
  | some t =>
      cases ev with
      | connecting => exact updateTabStatus_refresh_frame m t.id .connecting none
      | connected => exact updateTabStatus_refresh_frame m t.id .connected none
      | disconnected e => exact updateTabStatus_refresh_frame m t.id .disconnected e
      | message msg => exact ⟨rfl, rfl, rfl, rfl, rfl⟩

/-- Relaying an event for an alias that is no longer configured can only
touch tabs that the `refresh()` filter drops anyway. -/
theorem handleClientEvent_filter_keep (m : InstanceManager) (ns : List String)
    (a : String) (ev : RemoteClientEvent) (hInv : m.Inv)
    (hidm : ∀ u ∈ m.tabs, ∀ v ∈ m.tabs, u.id = v.id → u.tabAlias = v.tabAlias)
    (hna : ns.contains a = false) :
    (m.handleClientEvent a ev).tabs.filter (keepTab ns)
      = m.tabs.filter (keepTab ns) := by
  unfold InstanceManager.handleClientEvent
  cases hf : m.tabs.find? (fun t => t.tabAlias == some a) with
  | none => rfl
  | some t =>
      have htmem := List.mem_of_find?_eq_some hf
      have hta : t.tabAlias = some a := by simpa using List.find?_some hf
      have hdrop : ∀ x ∈ m.tabs, (x.id == t.id) = true →
          keepTab ns x = false ∧
          ∀ st err, keepTab ns (setTabStatus st err x) = false := by
        intro x hx hxid
        have hxa : x.tabAlias = some a := by
          rw [hidm x hx t htmem (by simpa using hxid), hta]
        have hxl : x.isLocal = false :=
          inv_alias_nonlocal hInv x hx (by rw [hxa]; rfl)
        have hnm : a ∉ ns := by simpa using hna
        constructor
        · simp [keepTab, hxl, hxa, hnm]
        · intro st err
          simp [keepTab, setTabStatus, hxl, hxa, hnm]
      have hupd : ∀ st err, (m.updateTabStatus t.id st err).tabs.filter (keepTab ns)
          = m.tabs.filter (keepTab ns) := by
        intro st err
        unfold InstanceManager.updateTabStatus
        cases m.tabs.find? (fun u => u.id == t.id) with
        | none => rfl
        | some u0 =>
            exact filter_updateFirst_drop m.tabs _ (keepTab ns) _
              (fun x hx hp => ⟨(hdrop x hx hp).1, (hdrop x hx hp).2 st err⟩)
      cases ev with
      | connecting => exact hupd .connecting none
      | connected => exact hupd .connected none
      | disconnected e => exact hupd .disconnected e
      | message msg => rfl

/-- Full specification of the `refresh()` filter walk: kept tabs unchanged
(as a filtered list), clients of still-configured aliases untouched, clients
of vanished non-empty aliases evicted (in fully disconnected state; the
falsy empty alias returns early and never disconnects), selection and
configuration untouched. -/
theorem refreshDisconnects_spec (ns : List String) (ts : List Tab) :
    ∀ (m : InstanceManager), m.Inv →
    (∀ u ∈ m.tabs, ∀ v ∈ m.tabs, u.id = v.id → u.tabAlias = v.tabAlias) →
    ((m.clients.map Prod.fst).Nodup) →
    (∀ t ∈ ts, t.tabAlias.isSome = true → t.isLocal = false) →
    (refreshDisconnects ns m ts).tabs.filter (keepTab ns)
      = m.tabs.filter (keepTab ns) ∧
    (∀ b, ns.contains b = true →
       lookupA b (refreshDisconnects ns m ts).clients = lookupA b m.clients) ∧
    (∀ b, lookupA b (refreshDisconnects ns m ts).clients = none ∨
       lookupA b (refreshDisconnects ns m ts).clients = lookupA b m.clients) ∧
    (∀ b, b ≠ "" → ns.contains b = false → (∃ t ∈ ts, t.tabAlias = some b) →
       lookupA b (refreshDisconnects ns m ts).clients = none) ∧
    (∃ d, (refreshDisconnects ns m ts).evicted = m.evicted ++ d ∧
       ∀ e ∈ d, e.2.rc.status = .disconnected ∧ e.2.rc.ws = none ∧
         e.2.rc.pingInterval = false) ∧
    (refreshDisconnects ns m ts).selectedIndex = m.selectedIndex ∧
    (refreshDisconnects ns m ts).remoteConfigs = m.remoteConfigs := by
  induction ts with
  | nil =>
      intro m hInv hidm hnd hts
      refine ⟨rfl, fun b _ => rfl, fun b => Or.inr rfl, ?_,
        ⟨[], by simp [refreshDisconnects], by simp⟩, rfl, rfl⟩
      intro b _ _ hex
      obtain ⟨t, ht, _⟩ := hex
      exact absurd ht (List.not_mem_nil t)
  | cons t ts' ih =>
      intro m hInv hidm hnd hts
      have hts' : ∀ u ∈ ts', u.tabAlias.isSome = true → u.isLocal = false :=
        fun u hu => hts u (List.mem_cons_of_mem t hu)
      unfold refreshDisconnects
      dsimp only
      by_cases h1 : t.isLocal = true
      · rw [if_pos h1]
        obtain ⟨w1, w2, w3, w4, w5, w6, w7⟩ := ih m hInv hidm hnd hts'
        refine ⟨w1, w2, w3, ?_, w5, w6, w7⟩
        intro b hb0 hb hex
        obtain ⟨u, hu, hub⟩ := hex
        rcases List.mem_cons.mp hu with rfl | hu'
        · exact absurd (hts u (List.mem_cons_self u ts') (by rw [hub]; rfl))
            (by simp [h1])
        · exact w4 b hb0 hb ⟨u, hu', hub⟩
      · rw [if_neg h1]
        cases hta : t.tabAlias with
        | none =>
            obtain ⟨w1, w2, w3, w4, w5, w6, w7⟩ := ih m hInv hidm hnd hts'
            refine ⟨w1, w2, w3, ?_, w5, w6, w7⟩
            intro b hb0 hb hex
            obtain ⟨u, hu, hub⟩ := hex
            rcases List.mem_cons.mp hu with rfl | hu'
            · rw [hta] at hub
              exact absurd hub (by simp)
            · exact w4 b hb0 hb ⟨u, hu', hub⟩
        | some a =>
            dsimp only
            by_cases h0 : a = ""
            · rw [if_pos h0]
              obtain ⟨w1, w2, w3, w4, w5, w6, w7⟩ := ih m hInv hidm hnd hts'
              refine ⟨w1, w2, w3, ?_, w5, w6, w7⟩
              intro b hb0 hb hex
              obtain ⟨u, hu, hub⟩ := hex
              rcases List.mem_cons.mp hu with rfl | hu'
              · rw [hta] at hub
                have hba : b = a := by simpa using hub.symm
                rw [hba, h0] at hb0
                exact absurd rfl hb0
              · exact w4 b hb0 hb ⟨u, hu', hub⟩
            · rw [if_neg h0]
              by_cases h2 : ns.contains a = true
              · rw [if_pos h2]
                obtain ⟨w1, w2, w3, w4, w5, w6, w7⟩ := ih m hInv hidm hnd hts'
                refine ⟨w1, w2, w3, ?_, w5, w6, w7⟩
                intro b hb0 hb hex
                obtain ⟨u, hu, hub⟩ := hex
                rcases List.mem_cons.mp hu with rfl | hu'
                · rw [hta] at hub
                  have hba : b = a := by simpa using hub.symm
                  rw [hba] at hb
                  rw [hb] at h2
                  simp at h2
                · exact w4 b hb0 hb ⟨u, hu', hub⟩
              · rw [if_neg h2]
                cases hce : lookupA a m.clients with
                | none =>
                    obtain ⟨w1, w2, w3, w4, w5, w6, w7⟩ := ih m hInv hidm hnd hts'
                    refine ⟨w1, w2, w3, ?_, w5, w6, w7⟩
                    intro b hb0 hb hex
                    obtain ⟨u, hu, hub⟩ := hex
                    rcases List.mem_cons.mp hu with rfl | hu'
                    · rw [hta] at hub
                      have hba : b = a := by simpa using hub.symm
                      subst hba
                      rcases w3 b with hh | hh
                      · exact hh
                      · rw [hh, hce]
                    · exact w4 b hb0 hb ⟨u, hu', hub⟩
                | some ce =>
                    dsimp only
                    have hevs : ce.disconnectCall.evs = [.disconnected none] := rfl
                    have hrel : relayEvents a ce.disconnectCall.evs m
                        = m.handleClientEvent a (.disconnected none) := by
                      rw [hevs]
                      rfl
                    rw [hrel]
                    obtain ⟨hfc, hfe, hfs, hfr, hfk⟩ :=
                      handleClientEvent_refresh_frame m a (.disconnected none)
                    have hb2 : ns.contains a = false := by simpa using h2
                    have hfilter :=
                      handleClientEvent_filter_keep m ns a (.disconnected none)
                        hInv hidm hb2
                    have hInv1 : (m.handleClientEvent a (.disconnected none)).Inv :=
                      inv_handleClientEvent m a _ hInv
                    have hidm1 := hidm_of_tabKeys_eq hfk hidm
                    obtain ⟨w1, w2, w3, w4, w5, w6, w7⟩ :=
                      ih { m.handleClientEvent a (.disconnected none) with
                            clients := delA a
                              (m.handleClientEvent a (.disconnected none)).clients,
                            evicted := (m.handleClientEvent a (.disconnected none)).evicted
                              ++ [(a, ce.disconnectCall.c)] }
                        hInv1
                        hidm1
                        (by
                          dsimp only
                          rw [hfc]
                          exact (delA_keys_sublist a m.clients).nodup hnd)
                        hts'
                    dsimp only at w1 w2 w3 w4 w5 w6 w7
                    refine ⟨?_, ?_, ?_, ?_, ?_, ?_, ?_⟩
                    · rw [w1, hfilter]
                    · intro b hb
                      rw [w2 b hb, hfc]
                      have hba : b ≠ a := by
                        intro hcontra
                        rw [hcontra] at hb
                        rw [hb2] at hb
                        simp at hb
                      exact lookupA_delA_ne a b m.clients hba
                    · intro b
                      rcases w3 b with hh | hh
                      · exact Or.inl hh
                      · rw [hh, hfc]
                        by_cases hba : b = a
                        · subst hba
                          exact Or.inl (lookupA_delA_self b m.clients hnd)
                        · rw [lookupA_delA_ne a b m.clients hba]
                          exact Or.inr rfl
                    · intro b hb0 hb hex
                      obtain ⟨u, hu, hub⟩ := hex
                      rcases List.mem_cons.mp hu with rfl | hu'
                      · rw [hta] at hub
                        have hba : b = a := by simpa using hub.symm
                        subst hba
                        rcases w3 b with hh | hh
                        · exact hh
                        · rw [hh, hfc]
                          exact lookupA_delA_self b m.clients hnd
                      · exact w4 b hb0 hb ⟨u, hu', hub⟩
                    · obtain ⟨d, hd, hdP⟩ := w5
                      refine ⟨(a, ce.disconnectCall.c) :: d, ?_, ?_⟩
                      · rw [hd, hfe]
                        simp
                      · intro e he
                        rcases List.mem_cons.mp he with rfl | he'
                        · exact disconnectCall_resources ce
                        · exact hdP e he'
                    · rw [w6, hfs]
                    · rw [w7, hfr]

/-- Specification of the add-new-remotes loop: it appends, at the end and in
configuration order, one freshly created tab for each configured alias that
has no tab yet, touching nothing else. -/
theorem addNewRemoteTabs_spec (remotes : List (String × RemoteServerConfig)) :
    ∀ (m : InstanceManager), (remotes.map Prod.fst).Nodup →
    (addNewRemoteTabs m remotes).tabs
      = m.tabs ++ (remotes.filter
          (fun r => (m.tabs.find? (fun tb => tb.tabAlias == some r.1)).isNone)).map
          (fun r => createRemoteTab r.1 r.2.host r.2.port) ∧
    (addNewRemoteTabs m remotes).clients = m.clients ∧
    (addNewRemoteTabs m remotes).evicted = m.evicted ∧
    (addNewRemoteTabs m remotes).selectedIndex = m.selectedIndex ∧
    (addNewRemoteTabs m remotes).notifications = m.notifications := by
  induction remotes with
  | nil =>
      intro m _
      exact ⟨by simp [addNewRemoteTabs], rfl, rfl, rfl, rfl⟩
  | cons r rest ih =>
      intro m hrn
      obtain ⟨a, cfg⟩ := r
      have hrn2 : (a :: rest.map Prod.fst).Nodup := by simpa using hrn
      have hrn' : (rest.map Prod.fst).Nodup := (List.nodup_cons.mp hrn2).2
      have hna : a ∉ rest.map Prod.fst := (List.nodup_cons.mp hrn2).1
      unfold addNewRemoteTabs
      dsimp only
      cases hf : m.tabs.find? (fun tb => tb.tabAlias == some a) with
      | some u =>
          obtain ⟨i1, i2, i3, i4, i5⟩ :=
            ih { m with remoteConfigs := setA a cfg m.remoteConfigs } hrn'
          dsimp only at i1 i2 i3 i4 i5
          refine ⟨?_, i2, i3, i4, i5⟩
          rw [i1, List.filter_cons_of_neg (by simp [hf])]
      | none =>
          obtain ⟨i1, i2, i3, i4, i5⟩ :=
            ih { m with remoteConfigs := setA a cfg m.remoteConfigs,
                        tabs := m.tabs ++ [createRemoteTab a cfg.host cfg.port] } hrn'
          dsimp only at i1 i2 i3 i4 i5
          refine ⟨?_, i2, i3, i4, i5⟩
          rw [i1, List.filter_cons_of_pos (by simp [hf])]
          have hx : rest.filter
              (fun r => (((m.tabs ++ [createRemoteTab a cfg.host cfg.port]).find?
                (fun tb => tb.tabAlias == some r.1))).isNone)
              = rest.filter
                  (fun r => ((m.tabs.find? (fun tb => tb.tabAlias == some r.1))).isNone) := by
            apply List.filter_congr
            intro r' hr'
            have hmem : r'.1 ∈ rest.map Prod.fst := List.mem_map_of_mem Prod.fst hr'
            have hne : ((createRemoteTab a cfg.host cfg.port).tabAlias == some r'.1)
                = false := by
              simp only [createRemoteTab]
              simp only [Option.some.injEq, beq_iff_eq, beq_eq_false_iff_ne, ne_eq]
              intro hcontra
              exact hna (by rw [hcontra]; exact hmem)
            rw [find?_append_single m.tabs _ _ hne]
          rw [hx]
          simp

/-- The index-clamping tail of `refresh()` (index.ts:209-213), over an
arbitrary post-reconciliation state. -/
theorem clamp_sel (m3 : InstanceManager) :
    (notifyStateChange (if m3.selectedIndex ≥ m3.tabs.length
      then { m3 with selectedIndex := max 0 (m3.tabs.length - 1) }
      else m3)).selectedIndex
    = (if m3.selectedIndex ≥ m3.tabs.length then max 0 (m3.tabs.length - 1)
       else m3.selectedIndex) := by
  by_cases h : m3.selectedIndex ≥ m3.tabs.length
  · simp only [if_pos h]
    rfl
  · simp only [if_neg h]
    rfl

theorem mem_of_lookupA {α : Type} {a : String} {v : α} {l : List (String × α)}
    (h : lookupA a l = some v) : (a, v) ∈ l := by
  induction l with
  | nil => simp [lookupA] at h
  | cons e es ih =>
      obtain ⟨x, y⟩ := e
      unfold lookupA at h
      by_cases he : x = a
      · rw [if_pos (by simpa using he)] at h
        have hv : v = y := by simpa using h.symm
        subst hv
        subst he
        exact List.mem_cons_self (x, v) es
      · rw [if_neg (by simpa using he)] at h
        exact List.mem_cons_of_mem (x, y) (ih h)

/-- Claim C6: `refresh()` against a new configuration list removes exactly
the tabs that fail the filter's keep decision (vanished aliases, plus the
falsy-alias degenerate case), with the clients of vanished aliases
disconnected and evicted from the map; appends, in configuration order, one
fresh tab at the end for each configured alias with no tab surviving the
removal pass (exactly the source's `this.tabs.find` test, which runs after
the filter); leaves surviving clients untouched; never touches the local
tab (the list still starts with it); and clamps the selected index to the
last valid index when it fell out of range.  The hypotheses are
reachable-state well-formedness: consistent ids/aliases, unique client
keys, clients backed by tabs, and no client keyed by the empty alias
(`connectToRemote`'s falsy-field guard never creates one). -/
theorem C6_refresh_reconciliation (m : InstanceManager)
    (remotes : List (String × RemoteServerConfig))
    (hInv : m.Inv)
    (hidm : ∀ u ∈ m.tabs, ∀ v ∈ m.tabs, u.id = v.id → u.tabAlias = v.tabAlias)
    (hnd : (m.clients.map Prod.fst).Nodup)
    (hct : ∀ e ∈ m.clients, ∃ tb ∈ m.tabs, tb.tabAlias = some e.1)
    (hc0 : lookupA "" m.clients = none)
    (hrn : (remotes.map Prod.fst).Nodup) :
    (m.refreshStep remotes).tabs
      = m.tabs.filter (keepTab (remotes.map Prod.fst))
        ++ (remotes.filter
              (fun r => ((m.tabs.filter (keepTab (remotes.map Prod.fst))).find?
                (fun tb => tb.tabAlias == some r.1)).isNone)).map
             (fun r => createRemoteTab r.1 r.2.host r.2.port) ∧
    (∀ a, (remotes.map Prod.fst).contains a = false →
       lookupA a (m.refreshStep remotes).clients = none) ∧
    (∀ a, (remotes.map Prod.fst).contains a = true →
       lookupA a (m.refreshStep remotes).clients = lookupA a m.clients) ∧
    (∃ d, (m.refreshStep remotes).evicted = m.evicted ++ d ∧
       ∀ e ∈ d, e.2.rc.status = .disconnected ∧ e.2.rc.ws = none ∧
         e.2.rc.pingInterval = false) ∧
    (m.refreshStep remotes).selectedIndex
      = (if m.selectedIndex ≥ (m.refreshStep remotes).tabs.length
         then max 0 ((m.refreshStep remotes).tabs.length - 1)
         else m.selectedIndex) ∧
    (m.refreshStep remotes).tabs.head? = some createLocalTab := by
  have hts : ∀ t ∈ m.tabs, t.tabAlias.isSome = true → t.isLocal = false :=
    inv_alias_nonlocal hInv
  obtain ⟨w1, w2, w3, w4, w5, w6, w7⟩ :=
    refreshDisconnects_spec (remotes.map Prod.fst) m.tabs m hInv hidm hnd hts
  obtain ⟨a1, a2, a3, a4, a5⟩ :=
    addNewRemoteTabs_spec remotes
      { refreshDisconnects (remotes.map Prod.fst) m m.tabs with
        tabs := (refreshDisconnects (remotes.map Prod.fst) m m.tabs).tabs.filter
          (keepTab (remotes.map Prod.fst)) } hrn
  dsimp only at a1 a2 a3 a4 a5
  have hcond : remotes.filter
      (fun r => ((((refreshDisconnects (remotes.map Prod.fst) m m.tabs).tabs.filter
          (keepTab (remotes.map Prod.fst))).find?
        (fun tb => tb.tabAlias == some r.1))).isNone)
      = remotes.filter
          (fun r => (((m.tabs.filter (keepTab (remotes.map Prod.fst))).find?
            (fun tb => tb.tabAlias == some r.1))).isNone) := by
    apply List.filter_congr
    intro r hr
    rw [w1]
  have htabs : (m.refreshStep remotes).tabs
      = (addNewRemoteTabs
          { refreshDisconnects (remotes.map Prod.fst) m m.tabs with
            tabs := (refreshDisconnects (remotes.map Prod.fst) m m.tabs).tabs.filter
              (keepTab (remotes.map Prod.fst)) } remotes).tabs := by
    unfold InstanceManager.refreshStep
    dsimp only
    split <;> rfl
  dsimp only at htabs
  have hcli : (m.refreshStep remotes).clients
      = (refreshDisconnects (remotes.map Prod.fst) m m.tabs).clients := by
    unfold InstanceManager.refreshStep
    dsimp only
    split <;> exact a2
  have hevi : (m.refreshStep remotes).evicted
      = (refreshDisconnects (remotes.map Prod.fst) m m.tabs).evicted := by
    unfold InstanceManager.refreshStep
    dsimp only
    split <;> exact a3
  have hs1 := clamp_sel (addNewRemoteTabs
      { refreshDisconnects (remotes.map Prod.fst) m m.tabs with
        tabs := (refreshDisconnects (remotes.map Prod.fst) m m.tabs).tabs.filter
          (keepTab (remotes.map Prod.fst)) } remotes)
  dsimp only at hs1
  conv at hs1 =>
    rhs
    rw [← htabs, a4, w6]
  refine ⟨?_, ?_, ?_, ?_, hs1, (inv_refreshStep m remotes hInv).1⟩
  · rw [htabs, a1, hcond, w1]
  · intro a hna
    rw [hcli]
    by_cases ha0 : a = ""
    · subst ha0
      rcases w3 "" with hh | hh
      · exact hh
      · rw [hh]
        exact hc0
    · cases hlook : lookupA a m.clients with
      | none =>
          rcases w3 a with hh | hh
          · exact hh
          · rw [hh, hlook]
      | some ce =>
          obtain ⟨tb, htb, htba⟩ := hct (a, ce) (mem_of_lookupA hlook)
          exact w4 a ha0 hna ⟨tb, htb, htba⟩
  · intro a hin
    rw [hcli]
    exact w2 a hin
  · obtain ⟨d, hd, hdP⟩ := w5
    exact ⟨d, by rw [hevi, hd], hdP⟩

/-- Concrete scenario for C6/C10: remotes `"r1"` (connected) and `"r2"`
(never selected); the refresh list drops `"r1"`, keeps `"r2"`, adds
`"r3"`. -/
def c6mgr : InstanceManager :=
  mgrRun (initStep freshManager [("r1", cfg1), ("r2", ⟨"host2", 81, "tok2"⟩)])
    [.selectTab 1, .transport "r1" .wsOpen,
     .transport "r1" (.wsMessage (.authResponse true none))]

/-- The refresh configuration for the C6/C10 scenario. -/
def c6remotes : List (String × RemoteServerConfig) :=
  [("r2", ⟨"host2", 81, "tok2"⟩), ("r3", ⟨"host3", 82, "tok3"⟩)]

/-- Witness for C6: in the concrete scenario the hypotheses hold, the
dropped alias's client is evicted, and the tab list is exactly the kept
tabs followed by the new `"r3"` tab. -/
theorem C6_refresh_reconciliation_witness :
    (c6mgr.clients.map Prod.fst).Nodup ∧
    lookupA "r1" (c6mgr.refreshStep c6remotes).clients = none ∧
    (c6mgr.refreshStep c6remotes).tabs
      = c6mgr.tabs.filter (keepTab (c6remotes.map Prod.fst))
        ++ (c6remotes.filter
              (fun r => ((c6mgr.tabs.filter (keepTab (c6remotes.map Prod.fst))).find?
                (fun tb => tb.tabAlias == some r.1)).isNone)).map
             (fun r => createRemoteTab r.1 r.2.host r.2.port) := by
  refine ⟨by decide, ?_, ?_⟩
  · exact (C6_refresh_reconciliation c6mgr c6remotes
      (by unfold InstanceManager.Inv TabsInv; decide) (by decide) (by decide)
      (by decide) (by decide) (by decide)).2.1 "r1" (by decide)
  · exact (C6_refresh_reconciliation c6mgr c6remotes
      (by unfold InstanceManager.Inv TabsInv; decide) (by decide) (by decide)
      (by decide) (by decide) (by decide)).1

/-! ### Claim C10: `refresh()` leaves surviving aliases untouched -/

theorem find?_append_left (l1 l2 : List Tab) (q : Tab → Bool) (x : Tab)
    (h : l1.find? q = some x) : (l1 ++ l2).find? q = some x := by
  induction l1 with
  | nil => simp at h
  | cons y ys ih =>
      by_cases hy : q y
      · rw [(List.find?_cons_of_pos ys hy : List.find? q (y :: ys) = some y)] at h
        rw [List.cons_append,
          (List.find?_cons_of_pos (ys ++ l2) hy : List.find? q (y :: (ys ++ l2)) = some y)]
        exact h
      · rw [(List.find?_cons_of_neg ys hy :
            List.find? q (y :: ys) = List.find? q ys)] at h
        rw [List.cons_append,
          (List.find?_cons_of_neg (ys ++ l2) hy :
            List.find? q (y :: (ys ++ l2)) = List.find? q (ys ++ l2))]
        exact ih h

/-- The C10 counterexample scenario: the empty-string alias is configured
(with host `"hostA"`) and owns a tab. -/
def c10mgr : InstanceManager :=
  initStep freshManager [("", ⟨"hostA", 80, "tokA"⟩)]

/-- The refresh configuration for the C10 counterexample: the empty alias
is still configured, now with host `"hostB"` and port 81. -/
def c10remotes : List (String × RemoteServerConfig) :=
  [("", ⟨"hostB", 81, "tokA"⟩)]

/-- Claim C10, counterexample to the original statement: the empty-string
alias is configured both before and after the refresh, yet its tab is NOT
kept as-is — the falsy check `if (!tab.alias) return false` (index.ts:185)
drops it before the survival test, and the add-loop re-creates it at the
end from the NEW configuration, so the host and port change and status and
`lastError` are reset. -/
theorem C10_counterexample :
    lookupA "" c10mgr.remoteConfigs = some ⟨"hostA", 80, "tokA"⟩ ∧
    c10mgr.tabs.find? (fun tb => tb.tabAlias == some "")
      = some (createRemoteTab "" "hostA" 80) ∧
    (c10mgr.refreshStep c10remotes).tabs
      = [createLocalTab, createRemoteTab "" "hostB" 81] ∧
    ¬ ((c10mgr.refreshStep c10remotes).tabs.find? (fun tb => tb.tabAlias == some "")
        = some (createRemoteTab "" "hostA" 80)) := by
  decide

/-- Claim C10, amended: an alias other than the empty string that is
configured both before and after `refresh()` keeps its tab exactly as it
was — the very same record, so id, label, status, `lastError`, host and
port are unchanged even if the stored configuration changed them — and its
alias→client entry is untouched.  (The empty-string alias is the one
exception: its tab is dropped by the falsy alias check and re-created at
the end from the new configuration, host/port updated and status/lastError
reset, though no client can ever exist under it.) -/
theorem C10_refresh_surviving_alias_frame (m : InstanceManager)
    (remotes : List (String × RemoteServerConfig)) (a : String) (t : Tab)
    (hInv : m.Inv)
    (hidm : ∀ u ∈ m.tabs, ∀ v ∈ m.tabs, u.id = v.id → u.tabAlias = v.tabAlias)
    (hnd : (m.clients.map Prod.fst).Nodup)
    (hrn : (remotes.map Prod.fst).Nodup)
    (ht : m.tabs.find? (fun tb => tb.tabAlias == some a) = some t)
    (hmem : a ∈ remotes.map Prod.fst)
    (ha : a ≠ "") :
    (m.refreshStep remotes).tabs.find? (fun tb => tb.tabAlias == some a) = some t ∧
    lookupA a (m.refreshStep remotes).clients = lookupA a m.clients := by
  have hts : ∀ u ∈ m.tabs, u.tabAlias.isSome = true → u.isLocal = false :=
    inv_alias_nonlocal hInv
  obtain ⟨w1, w2, w3, w4, w5, w6, w7⟩ :=
    refreshDisconnects_spec (remotes.map Prod.fst) m.tabs m hInv hidm hnd hts
  obtain ⟨a1, a2, a3, a4, a5⟩ :=
    addNewRemoteTabs_spec remotes
      { refreshDisconnects (remotes.map Prod.fst) m m.tabs with
        tabs := (refreshDisconnects (remotes.map Prod.fst) m m.tabs).tabs.filter
          (keepTab (remotes.map Prod.fst)) } hrn
  dsimp only at a1 a2 a3 a4 a5
  have htabs : (m.refreshStep remotes).tabs
      = (addNewRemoteTabs
          { refreshDisconnects (remotes.map Prod.fst) m m.tabs with
            tabs := (refreshDisconnects (remotes.map Prod.fst) m m.tabs).tabs.filter
              (keepTab (remotes.map Prod.fst)) } remotes).tabs := by
    unfold InstanceManager.refreshStep
    dsimp only
    split <;> rfl
  dsimp only at htabs
  have hcli : (m.refreshStep remotes).clients
      = (refreshDisconnects (remotes.map Prod.fst) m m.tabs).clients := by
    unfold InstanceManager.refreshStep
    dsimp only
    split <;> exact a2
  constructor
  · rw [htabs, a1, w1]
    apply find?_append_left
    rw [find?_filter_keep m.tabs _ (keepTab (remotes.map Prod.fst)) ?kept]
    · exact ht
    case kept =>
      intro x hx hq
      have hxa : x.tabAlias = some a := by simpa using hq
      have hxl : x.isLocal = false := hts x hx (by rw [hxa]; rfl)
      simp [keepTab, hxl, hxa, hmem, ha]
  · rw [hcli]
    exact w2 a (List.elem_eq_true_of_mem hmem)

/-- Witness for C10: in the concrete scenario the surviving alias `"r2"`
keeps its exact tab record and its (absent) client entry. -/
theorem C10_refresh_surviving_alias_frame_witness :
    c6mgr.tabs.find? (fun tb => tb.tabAlias == some "r2")
      = some (createRemoteTab "r2" "host2" 81) ∧
    (c6mgr.refreshStep c6remotes).tabs.find? (fun tb => tb.tabAlias == some "r2")
      = some (createRemoteTab "r2" "host2" 81) ∧
    lookupA "r2" (c6mgr.refreshStep c6remotes).clients = lookupA "r2" c6mgr.clients :=
  ⟨by decide,
   (C10_refresh_surviving_alias_frame c6mgr c6remotes "r2" (createRemoteTab "r2" "host2" 81)
      (by unfold InstanceManager.Inv TabsInv; decide) (by decide) (by decide)
      (by decide) (by decide) (by decide) (by decide)).1,
   (C10_refresh_surviving_alias_frame c6mgr c6remotes "r2" (createRemoteTab "r2" "host2" 81)
      (by unfold InstanceManager.Inv TabsInv; decide) (by decide) (by decide)
      (by decide) (by decide) (by decide) (by decide)).2⟩

/-! ### Claim C8: what the UI receives — copies or references?

JS objects live on a heap and variables hold references.  The spread
`[...this.tabs]` (index.ts:102, 294) copies the *array* — a fresh list of
the same object references — and `getSelectedTab()` (index.ts:116) returns
the stored reference itself.  This model makes that explicit: the heap is a
list of tab records addressed by index, and the coordinator's `tabs` array
is a list of references into it. -/

/-- A heap reference (JS object identity). -/
abbrev TabRef := Nat

/-- The reference-level view of the coordinator state used by the snapshot
functions. -/
structure MgrRef where
  heap : List Tab
  tabRefs : List TabRef
  selectedIndex : Nat
deriving DecidableEq

/-- Dereference a tab object. -/
def deref (h : List Tab) (r : TabRef) : Option Tab := h.get? r

/-- `getTabs()` and the array passed to the state-change handler
(`[...this.tabs]`): a fresh array holding the same references. -/
def MgrRef.getTabsR (m : MgrRef) : List TabRef := m.tabRefs

/-- `getSelectedTab()`: the stored reference itself, no copy at all. -/
def MgrRef.getSelectedTabR (m : MgrRef) : Option TabRef :=
  m.tabRefs.get? m.selectedIndex

/-- What a delivered snapshot shows when each element is read through the
current heap. -/
def snapshotView (h : List Tab) (s : List TabRef) : List (Option Tab) :=
  s.map (deref h)

/-- `updateTabStatus` at the reference level (index.ts:281-284): find the
first reference whose object has the id and mutate that heap cell in
place. -/
def MgrRef.updateTabStatusR (m : MgrRef) (tabId : String) (st : ConnectionStatus)
    (err : Option String) : MgrRef :=
  match m.tabRefs.find? (fun r =>
      match deref m.heap r with
      | some t => t.id == tabId
      | none => false) with
  | none => m
  | some r =>
      match deref m.heap r with
      | none => m
      | some t => { m with heap := m.heap.set r (setTabStatus st err t) }

/-- A UI-side in-place write through a delivered reference (JS code can
mutate any object it holds a reference to). -/
def uiWrite (h : List Tab) (r : TabRef) (t : Tab) : List Tab := h.set r t

/-- A concrete reference-level coordinator: the local tab and one remote. -/
def c8mgr : MgrRef := ⟨[createLocalTab, createRemoteTab "r1" "host1" 80], [0, 1], 0⟩

/-- Claim C8 counterexample: the snapshot delivered *before* an internal
`updateTabStatus` shows the update afterwards (its elements are shared
references, not copies), and a UI write through the delivered selected-tab
reference changes what the coordinator itself sees. -/
theorem C8_counterexample :
    snapshotView (c8mgr.updateTabStatusR "remote-r1" .connected none).heap
        c8mgr.getTabsR
      ≠ snapshotView c8mgr.heap c8mgr.getTabsR ∧
    c8mgr.getSelectedTabR = some 0 ∧
    snapshotView (uiWrite c8mgr.heap 0 (setTabStatus .disconnected none createLocalTab))
        c8mgr.tabRefs
      ≠ snapshotView c8mgr.heap c8mgr.tabRefs := by decide

/-- Claim C8 (amended): the UI receives a fresh *array* per delivery, but
its elements are the coordinator's own tab references — `getTabs()` and the
state-change snapshot deliver exactly the internal reference list and
`getSelectedTab()` the stored reference — so coordinator-side in-place
updates are visible through previously delivered snapshots and UI-side
writes through a delivered reference are visible to the coordinator. -/
theorem C8_snapshots_share_references (m : MgrRef) (i : Nat) (r : TabRef) (t' : Tab)
    (hr : m.tabRefs.get? i = some r) (hlt : r < m.heap.length) :
    m.getTabsR = m.tabRefs ∧
    m.getSelectedTabR = m.tabRefs.get? m.selectedIndex ∧
    deref (uiWrite m.heap r t') r = some t' ∧
    (snapshotView (uiWrite m.heap r t') m.getTabsR).get? i = some (some t') := by
  have hset : (m.heap.set r t').get? r = some t' := by
    rw [List.get?_eq_getElem?]
    exact List.getElem?_set_eq_of_lt t' hlt
  refine ⟨rfl, rfl, hset, ?_⟩
  unfold snapshotView MgrRef.getTabsR
  rw [List.get?_map, hr]
  simp only [Option.map_some']
  exact congrArg some hset

/-- Witness for C8 (amended): discharged at the concrete coordinator, the
remote tab's reference, and a rewritten tab record. -/
theorem C8_snapshots_share_references_witness :
    c8mgr.tabRefs.get? 1 = some 1 ∧
    (snapshotView (uiWrite c8mgr.heap 1 createLocalTab) c8mgr.getTabsR).get? 1
      = some (some createLocalTab) :=
  ⟨by decide,
   (C8_snapshots_share_references c8mgr 1 1 createLocalTab (by decide) (by decide)).2.2.2⟩

end RalphTui
